import Mathlib

/-!
# Verification of the holiday-trivia real-time quiz backend

Shallow embedding of `src/backend/main.py` (and the data model of
`src/backend/models.py`) of the `ashgithub/holiday-trivia` repository,
together with proofs settling the frozen claims C1..C10 about it.

Modelling conventions:
* Python `int` / SQL `Integer` scores are `ℤ`; numeric values extracted
  from answer text (Python `float`) are `ℚ`; identifiers are `ℕ`.
* External libraries that the backend calls (the `word2number` converter
  and the sentence-transformer similarity model) are oracles passed in as
  function parameters, exactly at the call boundary the source uses them.
* Fallible Python code that swallows exceptions is modelled with `Option`
  and with total functions returning the source's fallback values.
* The single-threaded cooperative handlers are modelled as pure
  state-transition functions: database tables become lists of rows in
  insertion order, WebSocket sends become elements of an emitted message
  trace.
-/

namespace HolidayTrivia

/-- Python `abs` on a rational value (`abs(user_num - correct_num)` in the
source). -/
def pyAbs (q : ℚ) : ℚ := if q < 0 then -q else q

/-- The default whitespace characters stripped by Python `str.strip()`
and split on by `str.split()` (the ASCII ones; quiz answers contain no
exotic Unicode whitespace). -/
def pyIsSpace (c : Char) : Bool :=
  c = ' ' || c = '\t' || c = '\n' || c = '\x0d' || c = '\x0b' || c = '\x0c'

/-- Python `str.strip()`: drop leading and trailing whitespace. -/
def pyStrip (s : String) : String :=
  ⟨((s.toList.dropWhile pyIsSpace).reverse.dropWhile pyIsSpace).reverse⟩

/-- Python `str.lower()` on the ASCII range. -/
def pyLowerChar (c : Char) : Char :=
  if 'A' ≤ c ∧ c ≤ 'Z' then Char.ofNat (c.toNat + 32) else c

/-- Python `str.lower()` (ASCII case mapping; quiz phrases are ASCII). -/
def pyLower (s : String) : String := ⟨s.toList.map pyLowerChar⟩

/-- Helper for `str.split()`: accumulate the current word (reversed). -/
def pySplitAux : List Char → List Char → List (List Char)
  | [], acc => if acc.isEmpty then [] else [acc.reverse]
  | c :: cs, acc =>
    if pyIsSpace c then
      if acc.isEmpty then pySplitAux cs [] else acc.reverse :: pySplitAux cs []
    else pySplitAux cs (c :: acc)

/-- Python `str.split()` with no argument: the whitespace-separated
words, with no empty strings. -/
def pySplit (s : String) : List String :=
  (pySplitAux s.toList []).map fun l => ⟨l⟩

/-- Python `int(...)` applied to a rational: truncation toward zero
(`int(2.7) = 2`, `int(-2.7) = -2`). -/
def pyInt (q : ℚ) : ℤ := if 0 ≤ q then ⌊q⌋ else -⌊-q⌋

/-- Numeric value of a list of decimal digit characters (most significant
first), used by the model of Python `float()` parsing. -/
def digitsVal (l : List Char) : ℕ :=
  l.foldl (fun a c => a * 10 + (c.toNat - 48)) 0

/-- Split a character list into its maximal leading run of decimal digits
and the rest. -/
def readDigits : List Char → List Char × List Char
  | [] => ([], [])
  | c :: cs =>
    if c.isDigit then
      let (d, r) := readDigits cs
      (c :: d, r)
    else ([], c :: cs)

/-- Parse an optional leading sign, returning the sign as `1` or `-1` and
the remaining characters. -/
def readSign : List Char → ℤ × List Char
  | '-' :: cs => (-1, cs)
  | '+' :: cs => (1, cs)
  | cs => (1, cs)

/-- Model of CPython `float(text)` on an already stripped and lowercased
string, as used by `extract_number_from_text` in `src/backend/main.py`:
accepts `[sign] (digits [. digits] | . digits) [e [sign] digits]` and
returns the exact rational value; anything else raises `ValueError`,
modelled as `none`.  (The special forms `inf`/`nan` and digit-group
underscores, which no quiz answer uses, are outside the model.) -/
def pyFloat (s : String) : Option ℚ :=
  let (sgn, cs) := readSign s.toList
  let (ip, cs) := readDigits cs
  let (fp, cs) :=
    match cs with
    | '.' :: rest =>
      let (f, r) := readDigits rest
      (some f, r)
    | _ => (none, cs)
  let mantissaOk : Bool :=
    decide (ip ≠ []) || (match fp with | some f => decide (f ≠ []) | none => false)
  if mantissaOk then
    let frac : ℚ :=
      match fp with
      | some f => (digitsVal f : ℚ) / ((10 : ℚ) ^ f.length)
      | none => 0
    let mant : ℚ := (sgn : ℚ) * ((digitsVal ip : ℚ) + frac)
    match cs with
    | [] => some mant
    | 'e' :: rest =>
      let (esgn, rest) := readSign rest
      let (ed, rest) := readDigits rest
      if ed ≠ [] ∧ rest = [] then
        some (mant * (10 : ℚ) ^ (esgn * (digitsVal ed : ℤ)))
      else none
    | _ => none
  else none

/-- `extract_number_from_text` (src/backend/main.py lines 154-180):
extract a numerical value from text containing digits or written numbers.
`w2n` is the external `word2number.w2n.word_to_num` capability, `none`
standing for its `ValueError`.  Empty or whitespace-only input returns
`none`; then direct `float` conversion is tried, then word-to-number on
each whitespace-separated word in turn, then on the whole phrase; the
bare `except` on the last attempt is the `none` fallback. -/
def extract_number_from_text (w2n : String → Option ℚ) (text : String) : Option ℚ :=
  if pyStrip text = "" then none
  else
    let t := pyLower (pyStrip text)
    match pyFloat t with
    | some v => some v
    | none =>
      match (pySplit t).findSome? w2n with
      | some v => some v
      | none => w2n t

/-- `compute_numeric_score` (src/backend/main.py lines 60-83): score for a
numeric fill_in_the_blank submission.  Extraction failure on either side
scores 0; an exact numeric match scores `max_score`; otherwise a
provisional closeness score `min (max 1 (int (max_score / (diff + 1))))
(max_score - 1)` is returned.  The source's enclosing `try/except: return 0`
never fires in the remaining pure arithmetic, so the model is total. -/
def compute_numeric_score (w2n : String → Option ℚ) (max_score : ℤ)
    (correct_str user_str : String) : ℤ :=
  match extract_number_from_text w2n correct_str with
  | none => 0
  | some correct_num =>
    match extract_number_from_text w2n user_str with
    | none => 0
    | some user_num =>
      if user_num = correct_num then max_score
      else
        let diff := pyAbs (user_num - correct_num)
        let closeness_score := max 1 (pyInt ((max_score : ℚ) / (diff + 1)))
        min closeness_score (max_score - 1)

/-- `compute_semantic_score` (src/backend/main.py lines 182-194) for
pictionary questions.  `simO` is the external sentence-transformer cosine
similarity capability applied to the stripped user and correct strings
(in that embedding order).  Blank input on either side returns `(0, 0)`;
otherwise the score is `int (max_score * sim)` when `sim` is at or above
the threshold and `0` below it. -/
def compute_semantic_score (simO : String → String → ℚ)
    (correct_str user_str : String) (max_score : ℤ) (threshold : ℚ) : ℤ × ℚ :=
  if pyStrip user_str = "" ∨ pyStrip correct_str = "" then (0, 0)
  else
    let sim := simO (pyStrip user_str) (pyStrip correct_str)
    (if threshold ≤ sim then pyInt ((max_score : ℚ) * sim) else 0, sim)

/-! ## Answer rows and top-10 proportional finalization -/

/-- A row of the `answers` table (src/backend/models.py lines 84-100).
`game_id` is `Option` because the handlers write
`current_game.id if current_game else None`. -/
structure AnswerRow where
  id : ℕ
  user_id : ℕ
  question_id : ℕ
  game_id : Option ℕ
  content : String
  is_correct : Bool
  score : ℤ
  retry_count : ℕ
  timestamp : ℚ
  deriving DecidableEq, Repr

/-- Stable insertion of an `(answer id, distance)` pair into a list sorted
by distance; equal distances keep their original relative order, matching
Python's stable `list.sort(key=lambda x: x[1])`. -/
def insertByDiff (x : ℕ × ℚ) : List (ℕ × ℚ) → List (ℕ × ℚ)
  | [] => [x]
  | y :: ys => if x.2 < y.2 then x :: y :: ys else y :: insertByDiff x ys

/-- Stable sort of `(answer id, distance)` pairs by distance, modelling
`non_exact_answers.sort(key=lambda x: x[1])`. -/
def sortByDiff : List (ℕ × ℚ) → List (ℕ × ℚ)
  | [] => []
  | x :: xs => insertByDiff x (sortByDiff xs)

/-- Maximum of the distances of a nonempty pair list, starting from the
first element's distance: `max(diff for _, diff in top_10)`. -/
def listMaxDiff (m : ℚ) : List (ℕ × ℚ) → ℚ
  | [] => m
  | x :: xs => listMaxDiff (max m x.2) xs

/-- The answers considered by the finalization pass: those of the given
question and game. -/
def fitbScope (rows : List AnswerRow) (question_id : ℕ) (game_id : Option ℕ) :
    List AnswerRow :=
  rows.filter fun a => decide (a.question_id = question_id ∧ a.game_id = game_id)

/-- The `(id, |value - correct|)` pairs of the in-scope answers whose
content yields a numeric value different from the correct one, in row
order (the source's `non_exact_answers` list before sorting). -/
def nonExactPairs (w2n : String → Option ℚ) (rows : List AnswerRow)
    (question_id : ℕ) (game_id : Option ℕ) (correct_num : ℚ) : List (ℕ × ℚ) :=
  (fitbScope rows question_id game_id).filterMap fun a =>
    match extract_number_from_text w2n a.content with
    | none => none
    | some v => if v = correct_num then none else some (a.id, pyAbs (v - correct_num))

/-- The ten closest non-exact `(id, distance)` pairs (the source's
`top_10`). -/
def top10Pairs (w2n : String → Option ℚ) (rows : List AnswerRow)
    (question_id : ℕ) (game_id : Option ℕ) (correct_num : ℚ) : List (ℕ × ℚ) :=
  (sortByDiff (nonExactPairs w2n rows question_id game_id correct_num)).take 10

/-- The proportional score assigned to a top-10 pair:
`25` when `max_diff == 0`, else `int(25 * (1 - diff / max_diff)) + 1`. -/
def proportionalScore (max_diff : ℚ) (diff : ℚ) : ℤ :=
  if max_diff = 0 then 25 else pyInt (25 * (1 - diff / max_diff)) + 1

/-- `max(diff for _, diff in top_10)` (0 when the top-10 list is empty,
a case the source never reaches). -/
def top10MaxDiff (w2n : String → Option ℚ) (rows : List AnswerRow)
    (question_id : ℕ) (game_id : Option ℕ) (correct_num : ℚ) : ℚ :=
  match top10Pairs w2n rows question_id game_id correct_num with
  | [] => 0
  | p :: rest => listMaxDiff p.2 rest

/-- The `(answer id, proportional score)` assignments for the top 10. -/
def top10Assignments (w2n : String → Option ℚ) (rows : List AnswerRow)
    (question_id : ℕ) (game_id : Option ℕ) (correct_num : ℚ) : List (ℕ × ℤ) :=
  (top10Pairs w2n rows question_id game_id correct_num).map fun q =>
    (q.1, proportionalScore (top10MaxDiff w2n rows question_id game_id correct_num) q.2)

/-- The per-row mutation of the finalization pass: out-of-scope rows and
rows without an extractable number are untouched; exact numeric matches
become `(30, correct)`; a row whose id carries a top-10 assignment gets
that score with the incorrect flag; every other non-exact numeric row is
zeroed. -/
def finalizeRow (w2n : String → Option ℚ) (question_id : ℕ)
    (game_id : Option ℕ) (correct_num : ℚ) (assignments : List (ℕ × ℤ))
    (a : AnswerRow) : AnswerRow :=
  if a.question_id = question_id ∧ a.game_id = game_id then
    match extract_number_from_text w2n a.content with
    | none => a
    | some v =>
      if v = correct_num then { a with score := 30, is_correct := true }
      else
        match assignments.lookup a.id with
        | some sc => { a with score := sc, is_correct := false }
        | none => { a with score := 0, is_correct := false }
  else a

/-- `compute_top10_proportional_scores` (src/backend/main.py lines
85-152), as a pure map over the answer table.  When the correct answer
yields no numeric value the table is unchanged; when there are no
non-exact numeric answers the source returns before `db.commit()`, so the
exact-match mutations made on the ORM objects are discarded when the
per-message session is closed — modelled as the table being unchanged.
Otherwise each row is rewritten by `finalizeRow`. -/
def compute_top10_proportional_scores (w2n : String → Option ℚ)
    (rows : List AnswerRow) (question_id : ℕ) (game_id : Option ℕ)
    (correct_answer : String) : List AnswerRow :=
  match extract_number_from_text w2n correct_answer with
  | none => rows
  | some correct_num =>
    if top10Pairs w2n rows question_id game_id correct_num = [] then rows
    else
      rows.map
        (finalizeRow w2n question_id game_id correct_num
          (top10Assignments w2n rows question_id game_id correct_num))

/-! ## Session state, events and the state machine -/

/-- A row of the `questions` table (src/backend/models.py lines 57-70).
`answers` is the optional JSON string of multiple-choice options. -/
structure QuestionRec where
  id : ℕ
  type : String
  content : String
  correct_answer : String
  answers : Option String
  allow_multiple : Bool
  order : ℕ
  deriving DecidableEq, Repr

/-- A row of the `games` table (src/backend/models.py lines 72-82),
restricted to the fields the orchestrator reads. -/
structure GameRec where
  id : ℕ
  status : String
  deriving DecidableEq, Repr

/-- The module-level session state of src/backend/main.py (lines 295-307
and 588): current game and question, question cursor and snapshot total,
the countdown task handle (`some true` = running, `some false` =
cancelled, `none` = never created or discarded), the presentation
instant, the wheel-of-fortune ephemeral state, and the word-cloud
finalization guard flag. -/
structure SessionState where
  current_game : Option GameRec
  current_question : Option QuestionRec
  current_question_index : ℕ
  total_questions : ℕ
  question_timer : Option Bool
  question_start_time : Option ℚ
  wof_revealed_indices : Option (List Bool)
  wof_reveal_task : Option Bool
  wof_winner : Option String
  word_cloud_scored : Bool
  deriving DecidableEq, Repr

/-- Recipients of a server send: the participant audience, the moderator
audience, the requesting moderator connection, or one participant's
session. -/
inductive Target where
  | toParticipants
  | toAdmins
  | toRequester
  | toUser (uid : ℕ)
  deriving DecidableEq, Repr

/-- Server events emitted by the modelled handlers.  Payloads that no
claim inspects (question bodies, answer lists, leaderboards, word-cloud
frequencies) are elided; the event type and its routing are kept. -/
inductive ServerEvent where
  | timer_update (time_left : ℕ)
  | timer_update_ready
  | time_expired
  | question_pushed
  | question_ev
  | wof_winner_ev (winner : String)
  | personal_feedback
  | answer_received
  | reveal_error
  | reveal_confirmed
  | answer_revealed
  | word_cloud_revealed
  | word_cloud_scoring_complete
  deriving DecidableEq, Repr

/-- Stable insertion of a question into a list sorted by the persisted
`order` column. -/
def insertByOrder (q : QuestionRec) : List QuestionRec → List QuestionRec
  | [] => [q]
  | x :: xs => if q.order < x.order then q :: x :: xs else x :: insertByOrder q xs

/-- The question table in persisted display order:
`order_by(Question.order)` (src/backend/main.py line 1206).  SQLite
breaks ties by rowid, i.e. insertion order, which a stable sort models. -/
def sortQuestions : List QuestionRec → List QuestionRec
  | [] => []
  | q :: qs => insertByOrder q (sortQuestions qs)

/-- The initial revealed mask of a wheel-of-fortune phrase
(src/backend/main.py lines 1216-1220): every character starts hidden and
non-alphanumeric characters are pre-revealed. -/
def wofInitialMask (phrase : String) : List Bool :=
  phrase.toList.map fun c => !c.isAlphanum

/-- `start_quiz` (src/backend/main.py lines 1157-1171): clears all answer
rows, creates a fresh active game, snapshots the question count into
`total_questions` and resets the cursor. -/
def start_quiz (db : List QuestionRec) (new_game_id : ℕ) (s : SessionState) :
    SessionState × List AnswerRow :=
  ({s with current_game := some ⟨new_game_id, "active"⟩,
           total_questions := db.length,
           current_question_index := 0}, [])

/-- `end_quiz` (src/backend/main.py lines 1299-1312): marks the game
finished in the store, clears the current game and question, and cancels
and discards the countdown task. -/
def end_quiz (s : SessionState) : SessionState :=
  {s with current_game := none, current_question := none, question_timer := none}

/-- `next_question` (src/backend/main.py lines 1173-1221).  A no-op
unless the quiz is active and the cursor is below the *current* question
count (`total = db.query(Question).count()` is re-queried on every call,
not read from the `total_questions` snapshot).  Otherwise it cancels a
running countdown (broadcasting a reset display value to the moderator
audience), cancels and discards the phrase-reveal task, clears the
phrase-reveal ephemeral state, loads the question at the cursor in
persisted display order, advances the cursor, records the presentation
instant, and for a wheel-of-fortune question computes the initial
revealed mask without starting the reveal engine. -/
def next_question (db : List QuestionRec) (now : ℚ) (s : SessionState) :
    SessionState × List (Target × ServerEvent) :=
  match s.current_game with
  | none => (s, [])
  | some g =>
    if g.status ≠ "active" then (s, [])
    else if db.length ≤ s.current_question_index then (s, [])
    else
      let resetMsgs :=
        if s.question_timer.isSome then
          [(Target.toAdmins,
            if s.current_question.map QuestionRec.type = some "wheel_of_fortune"
            then ServerEvent.timer_update_ready else ServerEvent.timer_update 30)]
        else []
      let s1 := {s with question_timer := s.question_timer.map (fun _ => false),
                        wof_reveal_task := none,
                        wof_revealed_indices := none,
                        wof_winner := none}
      match (sortQuestions db)[s.current_question_index]? with
      | none => (s1, resetMsgs)
      | some q =>
        let s2 := {s1 with current_question := some q,
                           current_question_index := s.current_question_index + 1,
                           question_start_time := some now}
        if q.type = "wheel_of_fortune" then
          ({s2 with wof_revealed_indices := some (wofInitialMask q.correct_answer)},
           resetMsgs)
        else (s2, resetMsgs)

/-- `score_word_cloud_and_reveal` (src/backend/main.py lines 1452-1529):
idempotent via the `word_cloud_scored` guard, which is set before the
current-question/current-game checks.  Word-cloud answers are not scored
(score 0, incorrect); each submitter gets a personal feedback message,
the word-cloud display goes to the moderator audience only (its
cluster/frequency payload is elided), a `reveal_confirmed` goes to the
requesting moderator connection when one triggered the reveal, and
participants get a scoring-complete notice. -/
def score_word_cloud_and_reveal (s : SessionState) (rows : List AnswerRow)
    (has_admin_requester : Bool) :
    SessionState × List AnswerRow × List (Target × ServerEvent) :=
  if s.word_cloud_scored then (s, rows, [])
  else
    let s1 := {s with word_cloud_scored := true}
    match s.current_question, s.current_game with
    | some cq, some g =>
      if cq.id = 0 ∨ g.id = 0 then (s1, rows, [])
      else
        let rows1 := rows.map fun r =>
          if r.question_id = cq.id ∧ r.game_id = some g.id then
            {r with score := 0, is_correct := false}
          else r
        let feedbacks :=
          (rows1.filter fun r =>
              decide (r.question_id = cq.id ∧ r.game_id = some g.id)).map
            fun r => (Target.toUser r.user_id, ServerEvent.personal_feedback)
        (s1, rows1,
          feedbacks ++ [(Target.toAdmins, ServerEvent.word_cloud_revealed)]
            ++ (if has_admin_requester
                then [(Target.toRequester, ServerEvent.reveal_confirmed)] else [])
            ++ [(Target.toParticipants, ServerEvent.word_cloud_scoring_complete)])
    | _, _ => (s1, rows, [])

/-! ## The participant answer handler -/

/-- A participant identity (a row of `users`). -/
structure ParticipantRec where
  id : ℕ
  name : String
  deriving DecidableEq, Repr

/-- An inbound `answer{question_id, answer}` message. -/
structure AnswerMsg where
  question_id : ℕ
  answer : String
  deriving DecidableEq, Repr

/-- Result of processing one answer message: the updated session state,
answer table and id counter, the emitted messages, and whether the
handler returned early (terminating the connection loop, as the
wheel-of-fortune winner guard does). -/
structure HandlerResult where
  session : SessionState
  rows : List AnswerRow
  next_id : ℕ
  msgs : List (Target × ServerEvent)
  closed : Bool
  deriving DecidableEq, Repr

/-- Seconds remaining as computed inside the wheel-of-fortune block
(src/backend/main.py lines 686-689): `max(0, 30 - int(elapsed))`, with 30
when no presentation instant is recorded. -/
def wofSecondsRemaining (now : ℚ) : Option ℚ → ℤ
  | none => 30
  | some t0 => max 0 (30 - pyInt (now - t0))

/-- The generic scoring block (src/backend/main.py lines 730-756),
dispatching on the question type: numeric closeness for
`fill_in_the_blank`, semantic similarity for `pictionary` (correct iff
the score is positive in both cases), and case/whitespace-insensitive
exact match scored by integer seconds remaining for every other type. -/
def genericScore (w2n : String → Option ℚ) (simO : String → String → ℚ)
    (now : ℚ) (t0 : Option ℚ) (cq : QuestionRec) (ans : String) : Bool × ℤ :=
  if cq.type = "fill_in_the_blank" then
    let sc := compute_numeric_score w2n 30 cq.correct_answer ans
    (decide (0 < sc), sc)
  else if cq.type = "pictionary" then
    let sc := (compute_semantic_score simO cq.correct_answer ans 30 (7 / 10)).1
    (decide (0 < sc), sc)
  else
    let ok := decide (pyLower (pyStrip ans) = pyLower (pyStrip cq.correct_answer))
    match t0 with
    | some t => (ok, if ok then pyInt (max 0 (30 - (now - t))) else 0)
    | none => (ok, 0)

/-- The wheel-of-fortune write (src/backend/main.py lines 694-712):
update the previously fetched row in place (bumping `retry_count`) or
insert a fresh row with `retry_count = 1`. -/
def upsertAnswer (rows : List AnswerRow) (next_id : ℕ)
    (existing0 : Option AnswerRow) (p : ParticipantRec) (m : AnswerMsg)
    (gid : Option ℕ) (ok : Bool) (score : ℤ) (now : ℚ) :
    List AnswerRow × ℕ :=
  match existing0 with
  | some e =>
    (rows.map fun r =>
      if r.id = e.id then
        {r with content := m.answer, is_correct := ok, score := score,
                retry_count := r.retry_count + 1, timestamp := now}
      else r, next_id)
  | none =>
    (rows ++ [⟨next_id, p.id, m.question_id, gid, m.answer, ok, score, 1, now⟩],
     next_id + 1)

/-- The tail of the answer handler (src/backend/main.py lines 758-831):
the generic update-or-insert write — which re-reads `is_correct` from the
row object already mutated by the wheel-of-fortune block, updates in
place only when that row is not marked correct or the question is a word
cloud, and otherwise inserts a new row — followed by the personal
feedback and moderator notification sends, and the automatic word-cloud
finalization once every live participant has a submitted row. -/
def genericWrite (rows : List AnswerRow) (next_id : ℕ)
    (existing0 : Option AnswerRow) (p : ParticipantRec) (m : AnswerMsg)
    (gid : Option ℕ) (is_word_cloud ok : Bool) (score : ℤ) (now : ℚ) :
    List AnswerRow × ℕ :=
  match existing0.bind fun e => rows.find? fun r => decide (r.id = e.id) with
  | some e =>
    if !e.is_correct || is_word_cloud then
      (rows.map fun r =>
        if r.id = e.id then
          {r with content := m.answer, is_correct := ok, score := score,
                  retry_count := r.retry_count + 1, timestamp := now}
        else r, next_id)
    else
      (rows ++ [⟨next_id, p.id, m.question_id, gid, m.answer, ok, score, 1, now⟩],
       next_id + 1)
  | none =>
    (rows ++ [⟨next_id, p.id, m.question_id, gid, m.answer, ok, score, 1, now⟩],
     next_id + 1)

/-- See `genericWrite` for the update-or-insert step itself. -/
def afterWrites (s : SessionState) (rows : List AnswerRow) (next_id : ℕ)
    (existing0 : Option AnswerRow) (p : ParticipantRec) (m : AnswerMsg)
    (gid : Option ℕ) (is_word_cloud ok : Bool) (score : ℤ) (now : ℚ)
    (msgs0 : List (Target × ServerEvent)) (participant_count : ℕ) :
    HandlerResult :=
  let wr : List AnswerRow × ℕ :=
    genericWrite rows next_id existing0 p m gid is_word_cloud ok score now
  let rows2 := wr.1
  let next2 := wr.2
  let msgs1 := msgs0 ++ [(Target.toUser p.id, ServerEvent.personal_feedback),
                         (Target.toAdmins, ServerEvent.answer_received)]
  if is_word_cloud && !s.word_cloud_scored then
    match s.current_question with
    | some cq =>
      let submitted :=
        (rows2.filter fun r =>
            decide (r.question_id = cq.id ∧ r.game_id = gid)).length
      if participant_count ≤ submitted then
        match score_word_cloud_and_reveal s rows2 false with
        | (s3, rows3, msgs3) => ⟨s3, rows3, next2, msgs1 ++ msgs3, false⟩
      else ⟨s, rows2, next2, msgs1, false⟩
    | none => ⟨s, rows2, next2, msgs1, false⟩
  else ⟨s, rows2, next2, msgs1, false⟩

/-- The `answer` branch of `participant_websocket` (src/backend/main.py
lines 652-831) as a pure transition.  `participant_count` is the live
participant connection count used by the word-cloud auto-finalization
check.  The wheel-of-fortune winner guard returns from the handler
without touching any state (`closed := true`); otherwise the
wheel-of-fortune block (when the current question is a wheel-of-fortune
and the ids match) scores the guess, possibly sets the winner, performs
its own write and winner broadcast, and then — because the source
deliberately falls through — the generic scoring block re-scores the
submission and the generic write block runs a second time. -/
def handle_answer (w2n : String → Option ℚ) (simO : String → String → ℚ)
    (participant_count : ℕ) (now : ℚ) (s : SessionState)
    (rows : List AnswerRow) (next_id : ℕ) (p : ParticipantRec)
    (m : AnswerMsg) : HandlerResult :=
  let gid := s.current_game.map fun g => g.id
  let existing0 := rows.find? fun r =>
    decide (r.user_id = p.id ∧ r.question_id = m.question_id ∧ r.game_id = gid)
  match s.current_question with
  | none =>
    afterWrites s rows next_id existing0 p m gid false false 0 now [] participant_count
  | some cq =>
    if cq.type = "wheel_of_fortune" ∧ m.question_id = cq.id then
      if s.wof_winner = some p.name then ⟨s, rows, next_id, [], true⟩
      else
        let ok1 := decide (pyLower (pyStrip m.answer) = pyLower (pyStrip cq.correct_answer))
        let winner1 := if ok1 && s.wof_winner.isNone then some p.name else s.wof_winner
        let score1 : ℤ := if ok1 then wofSecondsRemaining now s.question_start_time else 0
        let (rows1, next1) := upsertAnswer rows next_id existing0 p m gid ok1 score1 now
        let msgs1 :=
          if ok1 && winner1.isSome then
            [(Target.toAdmins, ServerEvent.wof_winner_ev (winner1.getD "")),
             (Target.toParticipants, ServerEvent.wof_winner_ev (winner1.getD ""))]
          else []
        let (ok2, score2) := genericScore w2n simO now s.question_start_time cq m.answer
        afterWrites {s with wof_winner := winner1} rows1 next1 existing0 p m gid
          false ok2 score2 now msgs1 participant_count
    else
      let iwc := decide (cq.type = "word_cloud")
      let (ok2, score2) :=
        if m.question_id = cq.id ∧ cq.type ≠ "word_cloud" then
          genericScore w2n simO now s.question_start_time cq m.answer
        else (false, 0)
      afterWrites s rows next_id existing0 p m gid iwc ok2 score2 now []
        participant_count

/-! ## The moderator handlers relevant to the claims -/

/-- The `next_question` branch of `admin_websocket` (src/backend/main.py
lines 903-929): runs the state-machine advance, unconditionally resets
the word-cloud finalization guard, and — whenever a current question is
set afterwards, even the stale one after a failed advance — broadcasts it
to both audiences and starts the countdown task for non-wheel-of-fortune
questions.  No event of any kind is sent when the advance was rejected
and no question is current. -/
def handle_next_question_msg (db : List QuestionRec) (now : ℚ)
    (s : SessionState) : SessionState × List (Target × ServerEvent) :=
  match next_question db now s with
  | (s1, msgs1) =>
    let s2 := {s1 with word_cloud_scored := false}
    match s2.current_question with
    | none => (s2, msgs1)
    | some cq =>
      let msgs2 := msgs1 ++ [(Target.toAdmins, ServerEvent.question_pushed),
                             (Target.toParticipants, ServerEvent.question_ev)]
      if cq.type ≠ "wheel_of_fortune" then
        ({s2 with question_timer := some true}, msgs2)
      else (s2, msgs2)

/-- The `reveal_answer` branch of `admin_websocket` (src/backend/main.py
lines 1110-1148): with no current question, a typed `reveal_error` event
goes back to the requesting moderator connection and nothing is mutated;
a word-cloud question triggers the idempotent clustering reveal; a
numeric fill-in-the-blank runs top-10 proportional finalization and then
the normal reveal; every other type gets the normal reveal. -/
def handle_reveal_answer (w2n : String → Option ℚ) (s : SessionState)
    (rows : List AnswerRow) :
    SessionState × List AnswerRow × List (Target × ServerEvent) :=
  match s.current_question with
  | none => (s, rows, [(Target.toRequester, ServerEvent.reveal_error)])
  | some cq =>
    if cq.type = "word_cloud" then
      score_word_cloud_and_reveal s rows true
    else if cq.type = "fill_in_the_blank" then
      (s,
       compute_top10_proportional_scores w2n rows cq.id
         (s.current_game.map fun g => g.id) cq.correct_answer,
       [(Target.toAdmins, ServerEvent.answer_revealed),
        (Target.toParticipants, ServerEvent.answer_revealed),
        (Target.toRequester, ServerEvent.reveal_confirmed)])
    else
      (s, rows,
       [(Target.toAdmins, ServerEvent.answer_revealed),
        (Target.toParticipants, ServerEvent.answer_revealed),
        (Target.toRequester, ServerEvent.reveal_confirmed)])

/-! ## The fixed countdown engine -/

/-- The sends of the countdown loop of `start_question_timer`
(src/backend/main.py lines 1331-1343): after each 1-second sleep
(abstracted here) the decremented value goes to the participant audience
and then the moderator audience, down to and including 0. -/
def countdown_ticks : ℕ → List (Target × ServerEvent)
  | 0 => []
  | t + 1 =>
    (Target.toParticipants, ServerEvent.timer_update t)
      :: (Target.toAdmins, ServerEvent.timer_update t)
      :: countdown_ticks t

/-- The full send trace of `start_question_timer`'s task
(src/backend/main.py lines 1314-1356): the initial remaining time (60 for
pictionary, 30 otherwise) to both audiences, the per-second decrements to
both audiences, then on expiry a `time_expired` event to the moderator
audience only.  (The subsequent word-cloud auto-finalization on expiry is
the state effect `score_word_cloud_and_reveal`, modelled separately.) -/
def start_question_timer_trace (is_pictionary : Bool) :
    List (Target × ServerEvent) :=
  let t0 : ℕ := if is_pictionary then 60 else 30
  (Target.toParticipants, ServerEvent.timer_update t0)
    :: (Target.toAdmins, ServerEvent.timer_update t0)
    :: (countdown_ticks t0 ++ [(Target.toAdmins, ServerEvent.time_expired)])

/-! ## The connection hub -/

/-- A live WebSocket peer; `alive = false` means `send_json` raises. -/
structure Conn where
  alive : Bool
  deriving DecidableEq, Repr

/-- The loop of `ConnectionManager.broadcast` (src/backend/main.py lines
276-286): iterate over a copy of the registry items, skip excluded
connections, deliver to live peers, and silently delete a failing peer
from the (separately threaded) live registry.  Returns the final registry
and the connection ids delivered to, in order. -/
def broadcast_loop (excl : List String) :
    List (String × Conn) → List (String × Conn) →
      List (String × Conn) × List String
  | [], reg => (reg, [])
  | (cid, c) :: rest, reg =>
    if cid ∈ excl then broadcast_loop excl rest reg
    else if c.alive then
      match broadcast_loop excl rest reg with
      | (r, d) => (r, cid :: d)
    else broadcast_loop excl rest (reg.eraseP fun q => decide (q.1 = cid))

/-- `ConnectionManager.broadcast`: run the loop over a copy of the
current registry, starting from that same registry.  The `except` around
each send is what makes this total: no delivery failure reaches the
caller. -/
def ConnectionManager.broadcast (reg : List (String × Conn))
    (excl : List String) : List (String × Conn) × List String :=
  broadcast_loop excl reg reg

/-! ## Concrete fixtures used by witnesses and counterexamples -/

/-- The everywhere-failing `word2number` oracle.  All concrete inputs
below are plain digit strings, which the direct `float` path of
`extract_number_from_text` resolves before the oracle is ever
consulted, so any oracle gives the same values there. -/
def w2nNone : String → Option ℚ := fun _ => none

/-- A similarity oracle returning the dyadic value `49/64 = 0.765625`
(exactly representable as a binary float, hence an attainable cosine
similarity). -/
def simC7 : String → String → ℚ := fun _ _ => 49 / 64

/-- A similarity oracle returning a value below the 0.7 threshold. -/
def simLow : String → String → ℚ := fun _ _ => 1 / 2

/-- A wheel-of-fortune question fixture. -/
def qWofEx : QuestionRec :=
  ⟨7, "wheel_of_fortune", "Guess the phrase", "HO HO", none, true, 0⟩

/-- A multiple-choice question fixture. -/
def qMcEx : QuestionRec :=
  ⟨20, "multiple_choice", "Pick one", "Red", some "[\"Red\", \"Green\"]", true, 0⟩

/-- A second multiple-choice question fixture (with a later display
order). -/
def qMcEx2 : QuestionRec :=
  ⟨21, "multiple_choice", "Pick again", "Green", some "[\"Red\", \"Green\"]", true, 1⟩

/-- Session fixture: an active game showing the wheel-of-fortune question
with no winner yet. -/
def sWofEx : SessionState :=
  ⟨some ⟨1, "active"⟩, some qWofEx, 1, 3, some true, some 0,
   some (wofInitialMask "HO HO"), some true, none, false⟩

/-- Session fixture: an active game that snapshotted a single question at
start and has already advanced past it (`cursor = total_questions = 1`),
while the store now holds two questions. -/
def sC3Ex : SessionState :=
  ⟨some ⟨1, "active"⟩, some qMcEx, 1, 1, some true, some 0, none, none, none, false⟩

/-- Session fixture: idle server, no game ever started, with the
word-cloud guard flag set so that its reset is observable. -/
def sIdleEx : SessionState :=
  ⟨none, none, 0, 0, none, none, none, none, none, true⟩

/-- An answer-row fixture for the numeric finalization claim: the row
carries exactly the submission-time numeric score and correctness flag
for its content against the canonical answer `"100"`. -/
def c2Row (i uid : ℕ) (content : String) : AnswerRow :=
  ⟨i, uid, 7, some 1, content,
   decide (0 < compute_numeric_score w2nNone 30 "100" content),
   compute_numeric_score w2nNone 30 "100" content, 1, 0⟩

/-- Thirteen submissions to a numeric question with canonical answer
`"100"`: one exact match, eleven non-exact numeric answers at distances 1
through 11, and one non-numeric answer. -/
def c2Rows : List AnswerRow :=
  [c2Row 1 1 "100", c2Row 2 2 "101", c2Row 3 3 "102", c2Row 4 4 "103",
   c2Row 5 5 "104", c2Row 6 6 "105", c2Row 7 7 "106", c2Row 8 8 "107",
   c2Row 9 9 "108", c2Row 10 10 "109", c2Row 11 11 "110", c2Row 12 12 "111",
   c2Row 13 13 "abc"]

/-! ## Basic arithmetic lemmas about the Python primitives -/

lemma pyAbs_eq_abs (q : ℚ) : pyAbs q = |q| := by
  unfold pyAbs
  rcases lt_or_le q 0 with h | h
  · rw [if_pos h, abs_of_neg h]
  · rw [if_neg (not_lt.mpr h), abs_of_nonneg h]

lemma pyAbs_nonneg (q : ℚ) : 0 ≤ pyAbs q := by
  rw [pyAbs_eq_abs]; exact abs_nonneg q

lemma pyAbs_pos {q : ℚ} (h : q ≠ 0) : 0 < pyAbs q := by
  rw [pyAbs_eq_abs]; exact abs_pos.mpr h

lemma pyInt_of_nonneg {q : ℚ} (h : 0 ≤ q) : pyInt q = ⌊q⌋ := if_pos h

/-- Truncated division of a nonnegative bound: `min (max 1 ⌊30/(d+1)⌋) 29`
is antitone in the distance `d`. -/
lemma closeness_antitone {ms : ℤ} {d1 d2 : ℚ} (h0 : 0 ≤ d1) (h12 : d1 ≤ d2)
    (hms : 0 ≤ ms) :
    min (max 1 (pyInt ((ms : ℚ) / (d2 + 1)))) (ms - 1)
      ≤ min (max 1 (pyInt ((ms : ℚ) / (d1 + 1)))) (ms - 1) := by
  have e1 : (0 : ℚ) < d1 + 1 := by linarith
  have e2 : (0 : ℚ) < d2 + 1 := by linarith
  have hmsq : (0 : ℚ) ≤ (ms : ℚ) := by exact_mod_cast hms
  have hdiv : (ms : ℚ) / (d2 + 1) ≤ (ms : ℚ) / (d1 + 1) := by
    apply div_le_div_of_nonneg_left hmsq e1 ?_
    · linarith
  rw [pyInt_of_nonneg (div_nonneg hmsq (le_of_lt e2)),
      pyInt_of_nonneg (div_nonneg hmsq (le_of_lt e1))]
  exact min_le_min (max_le_max le_rfl (Int.floor_le_floor hdiv)) le_rfl

/-- Closing lemma for concrete extractions: a plain digit string reduces
by the kernel to the unnormalized rational `1 * (n + 0)`, which
`norm_num` identifies with `n`. -/
lemma extract_val (w2n : String → Option ℚ) (s : String) (n : ℕ)
    (h : extract_number_from_text w2n s
          = some (((1 : ℤ) : ℚ) * ((n : ℚ) + 0))) :
    extract_number_from_text w2n s = some n := by
  rw [h]; norm_num

/-- Reduction of `compute_numeric_score` when both extractions succeed. -/
lemma compute_numeric_score_of_extract (w2n : String → Option ℚ) (ms : ℤ)
    (cs us : String) (c v : ℚ)
    (hc : extract_number_from_text w2n cs = some c)
    (hu : extract_number_from_text w2n us = some v) :
    compute_numeric_score w2n ms cs us =
      if v = c then ms
      else min (max 1 (pyInt ((ms : ℚ) / (pyAbs (v - c) + 1)))) (ms - 1) := by
  unfold compute_numeric_score
  rw [hc, hu]

/-! ## C10: totality of numeric scoring at its public boundary -/

/-- C10: numeric scoring is total at its public boundary: for every pair
of input strings `compute_numeric_score` returns a plain integer in
`[0, 30]` (never raises), and whenever no numeric value can be extracted
from the canonical or the submitted text — in particular from empty or
whitespace-only input, on which `extract_number_from_text` returns
`none` — it returns 0, so the handler's `is_correct = score > 0` flag is
false. -/
theorem numeric_score_total (w2n : String → Option ℚ) (c u : String) :
    ((extract_number_from_text w2n c = none ∨
        extract_number_from_text w2n u = none) →
      compute_numeric_score w2n 30 c u = 0
        ∧ ¬ (0 < compute_numeric_score w2n 30 c u))
    ∧ extract_number_from_text w2n "" = none
    ∧ extract_number_from_text w2n "   " = none
    ∧ 0 ≤ compute_numeric_score w2n 30 c u
    ∧ compute_numeric_score w2n 30 c u ≤ 30 := by
  have hbounds : 0 ≤ compute_numeric_score w2n 30 c u
      ∧ compute_numeric_score w2n 30 c u ≤ 30 := by
    cases hc : extract_number_from_text w2n c with
    | none =>
      have hz : compute_numeric_score w2n 30 c u = 0 := by
        unfold compute_numeric_score; rw [hc]
      rw [hz]; exact ⟨le_refl 0, by norm_num⟩
    | some cv =>
      cases hu : extract_number_from_text w2n u with
      | none =>
        have hz : compute_numeric_score w2n 30 c u = 0 := by
          unfold compute_numeric_score; rw [hc, hu]
        rw [hz]; exact ⟨le_refl 0, by norm_num⟩
      | some uv =>
        rw [compute_numeric_score_of_extract w2n 30 c u cv uv hc hu]
        by_cases hveq : uv = cv
        · rw [if_pos hveq]; exact ⟨by norm_num, le_refl 30⟩
        · rw [if_neg hveq]
          constructor
          · exact le_min (le_trans (by norm_num) (le_max_left 1 _)) (by norm_num)
          · exact le_trans (min_le_right _ _) (by norm_num)
  refine ⟨?_, rfl, rfl, hbounds.1, hbounds.2⟩
  intro h
  have hz : compute_numeric_score w2n 30 c u = 0 := by
    unfold compute_numeric_score
    rcases h with h | h
    · rw [h]
    · cases hc : extract_number_from_text w2n c with
      | none => rfl
      | some cv => rw [h]
  exact ⟨hz, by rw [hz]; exact lt_irrefl 0⟩

/-- Witness for C10 at the concrete inputs `("abc", "5")`: the canonical
text has no numeric value, so the submission scores 0 and is marked
incorrect. -/
theorem numeric_score_total_witness :
    compute_numeric_score w2nNone 30 "abc" "5" = 0
      ∧ ¬ (0 < compute_numeric_score w2nNone 30 "abc" "5") :=
  (numeric_score_total w2nNone "abc" "5").1 (Or.inl (by decide))

/-! ## C6: numeric scoring exactness and (non-)strict ranking -/

/-- C6 counterexample: the submissions `"40"` and `"50"` against the
canonical answer `"0"` both receive provisional score 1 although `"40"`
is strictly closer, so a strictly smaller distance does not yield a
strictly greater pre-finalization score. -/
theorem numeric_strictness_counterexample :
    extract_number_from_text w2nNone "0" = some 0
    ∧ extract_number_from_text w2nNone "40" = some 40
    ∧ extract_number_from_text w2nNone "50" = some 50
    ∧ pyAbs (40 - 0) < pyAbs (50 - 0)
    ∧ compute_numeric_score w2nNone 30 "0" "40" = 1
    ∧ compute_numeric_score w2nNone 30 "0" "50" = 1
    ∧ ¬ (compute_numeric_score w2nNone 30 "0" "50"
          < compute_numeric_score w2nNone 30 "0" "40") := by
  have e0 : extract_number_from_text w2nNone "0" = some 0 :=
    extract_val w2nNone "0" 0 rfl
  have e40 : extract_number_from_text w2nNone "40" = some 40 :=
    extract_val w2nNone "40" 40 rfl
  have e50 : extract_number_from_text w2nNone "50" = some 50 :=
    extract_val w2nNone "50" 50 rfl
  have s40 : compute_numeric_score w2nNone 30 "0" "40" = 1 := by
    rw [compute_numeric_score_of_extract w2nNone 30 "0" "40" 0 40 e0 e40]
    norm_num [pyAbs, pyInt, max_def, min_def]
  have s50 : compute_numeric_score w2nNone 30 "0" "50" = 1 := by
    rw [compute_numeric_score_of_extract w2nNone 30 "0" "50" 0 50 e0 e50]
    norm_num [pyAbs, pyInt, max_def, min_def]
  refine ⟨e0, e40, e50, by norm_num [pyAbs], s40, s50, ?_⟩
  rw [s40, s50]
  exact lt_irrefl 1

/-- C6 (amended): for strings with extractable numeric values, an exact
numeric match scores exactly the maximum 30 and a non-exact one scores
strictly below 30; a smaller-or-equal absolute distance to the canonical
value yields a greater-or-equal (not necessarily strictly greater)
pre-finalization score. -/
theorem numeric_score_amended (w2n : String → Option ℚ)
    (cs u1 u2 : String) (c v1 v2 : ℚ)
    (hc : extract_number_from_text w2n cs = some c)
    (h1 : extract_number_from_text w2n u1 = some v1)
    (h2 : extract_number_from_text w2n u2 = some v2) :
    (v1 = c → compute_numeric_score w2n 30 cs u1 = 30)
    ∧ (v1 ≠ c → compute_numeric_score w2n 30 cs u1 < 30)
    ∧ (v1 ≠ c → v2 ≠ c → pyAbs (v1 - c) ≤ pyAbs (v2 - c) →
        compute_numeric_score w2n 30 cs u2 ≤ compute_numeric_score w2n 30 cs u1) := by
  refine ⟨?_, ?_, ?_⟩
  · intro hv
    rw [compute_numeric_score_of_extract w2n 30 cs u1 c v1 hc h1, if_pos hv]
  · intro hv
    rw [compute_numeric_score_of_extract w2n 30 cs u1 c v1 hc h1, if_neg hv]
    exact lt_of_le_of_lt (min_le_right _ _) (by norm_num)
  · intro hv1 hv2 hle
    rw [compute_numeric_score_of_extract w2n 30 cs u1 c v1 hc h1, if_neg hv1,
        compute_numeric_score_of_extract w2n 30 cs u2 c v2 hc h2, if_neg hv2]
    exact closeness_antitone (pyAbs_nonneg _) hle (by norm_num)

/-- Witness for C6 (amended) at canonical `"150"`: `"150"` scores 30,
`"152"` scores below 30, and `"155"` (distance 5) scores no more than
`"152"` (distance 2). -/
theorem numeric_score_amended_witness :
    compute_numeric_score w2nNone 30 "150" "150" = 30
    ∧ compute_numeric_score w2nNone 30 "150" "152" < 30
    ∧ compute_numeric_score w2nNone 30 "150" "155"
        ≤ compute_numeric_score w2nNone 30 "150" "152" :=
  ⟨(numeric_score_amended w2nNone "150" "150" "155" 150 150 155
      (extract_val w2nNone "150" 150 rfl) (extract_val w2nNone "150" 150 rfl)
      (extract_val w2nNone "155" 155 rfl)).1 rfl,
   (numeric_score_amended w2nNone "150" "152" "155" 150 152 155
      (extract_val w2nNone "150" 150 rfl) (extract_val w2nNone "152" 152 rfl)
      (extract_val w2nNone "155" 155 rfl)).2.1 (by norm_num),
   (numeric_score_amended w2nNone "150" "152" "155" 150 152 155
      (extract_val w2nNone "150" 150 rfl) (extract_val w2nNone "152" 152 rfl)
      (extract_val w2nNone "155" 155 rfl)).2.2 (by norm_num) (by norm_num)
      (by norm_num [pyAbs])⟩

/-! ## C7: semantic scoring threshold and truncation -/

/-- C7 counterexample: at the attainable similarity `49/64 = 0.765625`
(above the 0.7 threshold) the code scores `int(30 * s) = 22`, whereas
`round(30 * s) = 23`, so the score does not equal
`round(maxScore × similarity)`. -/
theorem semantic_round_counterexample :
    (7 : ℚ) / 10 ≤ 49 / 64
    ∧ (compute_semantic_score simC7 "tree" "oak" 30 (7 / 10)).1 = 22
    ∧ round ((30 : ℚ) * (49 / 64)) = 23
    ∧ (compute_semantic_score simC7 "tree" "oak" 30 (7 / 10)).1
        ≠ round ((30 : ℚ) * (49 / 64)) := by
  have h1 : (compute_semantic_score simC7 "tree" "oak" 30 (7 / 10)).1 = 22 := by
    unfold compute_semantic_score
    rw [if_neg (by decide)]
    simp only [simC7]
    rw [if_pos (by norm_num)]
    norm_num [pyInt]
  have h2 : round ((30 : ℚ) * (49 / 64)) = 23 := by norm_num [round_eq]
  refine ⟨by norm_num, h1, h2, ?_⟩
  rw [h1, h2]; norm_num

/-- C7 (amended): for a pictionary submission with nonblank text on both
sides and external similarity `s ∈ [0, 1]`: below the fixed threshold 0.7
the answer scores 0 (hence is marked incorrect); at or above the
threshold the score is the *truncation* `⌊30 · s⌋` of `maxScore × s`
(not its rounding), which is positive, so the answer is marked correct. -/
theorem semantic_score_amended (simO : String → String → ℚ) (c u : String)
    (s : ℚ) (hc : pyStrip c ≠ "") (hu : pyStrip u ≠ "")
    (hsim : simO (pyStrip u) (pyStrip c) = s) (h0 : 0 ≤ s) :
    (s < 7 / 10 → compute_semantic_score simO c u 30 (7 / 10) = (0, s))
    ∧ (7 / 10 ≤ s →
        (compute_semantic_score simO c u 30 (7 / 10)).1 = ⌊(30 : ℚ) * s⌋
        ∧ 0 < (compute_semantic_score simO c u 30 (7 / 10)).1
        ∧ (compute_semantic_score simO c u 30 (7 / 10)).2 = s) := by
  have hblank : ¬ (pyStrip u = "" ∨ pyStrip c = "") := by
    rintro (h | h)
    · exact hu h
    · exact hc h
  constructor
  · intro hlt
    unfold compute_semantic_score
    rw [if_neg hblank, hsim]
    dsimp only
    rw [if_neg (not_le.mpr hlt)]
  · intro hge
    have hval : (compute_semantic_score simO c u 30 (7 / 10)).1
        = pyInt (((30 : ℤ) : ℚ) * s) := by
      unfold compute_semantic_score
      rw [if_neg hblank, hsim]
      dsimp only
      rw [if_pos hge]
    have hcast : ((30 : ℤ) : ℚ) = (30 : ℚ) := by norm_num
    have hnn : (0 : ℚ) ≤ (30 : ℚ) * s := mul_nonneg (by norm_num) h0
    refine ⟨?_, ?_, ?_⟩
    · rw [hval, hcast, pyInt_of_nonneg hnn]
    · rw [hval, hcast, pyInt_of_nonneg hnn]
      have : (21 : ℤ) ≤ ⌊(30 : ℚ) * s⌋ := by
        rw [Int.le_floor]
        push_cast
        linarith
      omega
    · unfold compute_semantic_score
      rw [if_neg hblank, hsim]

/-- Witness for C7 (amended): similarity 1/2 scores 0; similarity 49/64
scores `⌊30 · 49/64⌋` (= 22), positive hence correct. -/
theorem semantic_score_amended_witness :
    compute_semantic_score simLow "tree" "oak" 30 (7 / 10) = (0, 1 / 2)
    ∧ (compute_semantic_score simC7 "tree" "oak" 30 (7 / 10)).1
        = ⌊(30 : ℚ) * (49 / 64)⌋
    ∧ 0 < (compute_semantic_score simC7 "tree" "oak" 30 (7 / 10)).1 :=
  ⟨(semantic_score_amended simLow "tree" "oak" (1 / 2) (by decide) (by decide)
      rfl (by norm_num)).1 (by norm_num),
   ((semantic_score_amended simC7 "tree" "oak" (49 / 64) (by decide) (by decide)
      rfl (by norm_num)).2 (by norm_num)).1,
   ((semantic_score_amended simC7 "tree" "oak" (49 / 64) (by decide) (by decide)
      rfl (by norm_num)).2 (by norm_num)).2.1⟩

/-! ## C5: the fixed countdown trace -/

lemma time_expired_not_in_ticks (n : ℕ) (tgt : Target) :
    (tgt, ServerEvent.time_expired) ∉ countdown_ticks n := by
  induction n with
  | zero => simp [countdown_ticks]
  | succ k ih => simp [countdown_ticks, ih]

lemma mem_countdown_ticks {k n : ℕ} (h : k < n) :
    (Target.toParticipants, ServerEvent.timer_update k) ∈ countdown_ticks n
    ∧ (Target.toAdmins, ServerEvent.timer_update k) ∈ countdown_ticks n := by
  induction n with
  | zero => exact absurd h (Nat.not_lt_zero k)
  | succ m ih =>
    by_cases hk : k = m
    · subst hk
      exact ⟨List.mem_cons_self _ _,
        List.mem_cons_of_mem _ (List.mem_cons_self _ _)⟩
    · have hk' : k < m := lt_of_le_of_ne (Nat.lt_succ_iff.mp h) hk
      rcases ih hk' with ⟨h1, h2⟩
      exact ⟨List.mem_cons_of_mem _ (List.mem_cons_of_mem _ h1),
        List.mem_cons_of_mem _ (List.mem_cons_of_mem _ h2)⟩

/-- C5 counterexample: the expiry event of the fixed countdown is never
addressed to the participant audience — neither in the 30-second trace
nor in the 60-second (pictionary) trace — so it is not an event every
live participant connection receives. -/
theorem countdown_expiry_counterexample :
    (Target.toParticipants, ServerEvent.time_expired)
        ∉ start_question_timer_trace false
    ∧ (Target.toParticipants, ServerEvent.time_expired)
        ∉ start_question_timer_trace true := by
  decide

/-- C5 (amended): the fixed countdown multicasts the initial
remaining-time value (60 for pictionary, 30 otherwise) to the participant
audience and then the moderator audience, multicasts every decremented
value down to 0 to both audiences, and finishes with a `time_expired`
event sent to the moderator audience only — no participant connection is
addressed with it.  (The 1-second sleeps between sends are abstracted
from the trace.) -/
theorem countdown_trace_amended (b : Bool) :
    (start_question_timer_trace b).head? =
      some (Target.toParticipants,
        ServerEvent.timer_update (if b then 60 else 30))
    ∧ (start_question_timer_trace b)[1]? =
      some (Target.toAdmins, ServerEvent.timer_update (if b then 60 else 30))
    ∧ (∀ k, k < (if b then 60 else 30) →
        (Target.toParticipants, ServerEvent.timer_update k)
            ∈ start_question_timer_trace b
        ∧ (Target.toAdmins, ServerEvent.timer_update k)
            ∈ start_question_timer_trace b)
    ∧ (start_question_timer_trace b).getLast? =
        some (Target.toAdmins, ServerEvent.time_expired)
    ∧ (Target.toParticipants, ServerEvent.time_expired)
        ∉ start_question_timer_trace b := by
  refine ⟨?_, ?_, ?_, ?_, ?_⟩
  · cases b <;> rfl
  · cases b <;> rfl
  · intro k hk
    have hk' : k < (if b then 60 else 30) := hk
    constructor
    · apply List.mem_cons_of_mem
      apply List.mem_cons_of_mem
      exact List.mem_append_left _ (mem_countdown_ticks hk').1
    · apply List.mem_cons_of_mem
      apply List.mem_cons_of_mem
      exact List.mem_append_left _ (mem_countdown_ticks hk').2
  · cases b <;> decide
  · cases b <;> decide

/-- Witness for C5 (amended): decremented values reach both audiences in
both countdown variants. -/
theorem countdown_trace_witness :
    (Target.toParticipants, ServerEvent.timer_update 7)
        ∈ start_question_timer_trace false
    ∧ (Target.toAdmins, ServerEvent.timer_update 59)
        ∈ start_question_timer_trace true :=
  ⟨((countdown_trace_amended false).2.2.1 7 (by norm_num)).1,
   ((countdown_trace_amended true).2.2.1 59 (by norm_num)).2⟩

/-! ## C9: broadcast fault isolation -/

lemma broadcast_loop_all_alive (iter : List (String × Conn))
    (reg : List (String × Conn)) (h : ∀ q ∈ iter, q.2.alive = true) :
    broadcast_loop [] iter reg = (reg, iter.map Prod.fst) := by
  induction iter generalizing reg with
  | nil => rfl
  | cons x rest ih =>
    obtain ⟨cid, c⟩ := x
    have hc : c.alive = true := h (cid, c) (List.mem_cons_self _ _)
    have hrest : ∀ q ∈ rest, q.2.alive = true :=
      fun q hq => h q (List.mem_cons_of_mem _ hq)
    simp only [broadcast_loop]
    rw [if_neg (List.not_mem_nil cid), if_pos hc, ih reg hrest]
    rfl

lemma eraseP_first_key (pre post : List (String × Conn)) (f : String)
    (c : Conn) (hfresh : ∀ q ∈ pre, q.1 ≠ f) :
    (pre ++ (f, c) :: post).eraseP (fun q => decide (q.1 = f)) = pre ++ post := by
  induction pre with
  | nil => simp [List.eraseP_cons]
  | cons x rest ih =>
    have hx : ¬ x.1 = f := hfresh x (List.mem_cons_self _ _)
    have ih' := ih fun q hq => hfresh q (List.mem_cons_of_mem _ hq)
    simp [List.eraseP_cons, hx, ih']

lemma broadcast_loop_one_dead (pre post : List (String × Conn)) (f : String)
    (cdead : Conn) (reg : List (String × Conn)) (hdead : cdead.alive = false)
    (halive : ∀ q ∈ pre ++ post, q.2.alive = true)
    (hfresh : ∀ q ∈ pre, q.1 ≠ f) :
    broadcast_loop [] (pre ++ (f, cdead) :: post) reg =
      (reg.eraseP (fun q => decide (q.1 = f)), (pre ++ post).map Prod.fst) := by
  induction pre generalizing reg with
  | nil =>
    simp only [List.nil_append]
    simp only [broadcast_loop]
    rw [if_neg (List.not_mem_nil f), if_neg (by simp [hdead])]
    exact broadcast_loop_all_alive post _ fun q hq =>
      halive q (by simpa using hq)
  | cons x rest ih =>
    obtain ⟨cid, c⟩ := x
    have hc : c.alive = true := halive (cid, c) (List.mem_cons_self _ _)
    have hrest : ∀ q ∈ rest ++ post, q.2.alive = true := by
      intro q hq
      apply halive
      rcases List.mem_append.mp hq with h | h
      · exact List.mem_cons_of_mem _ (List.mem_append_left _ h)
      · exact List.mem_append_right _ h
    have hfresh' : ∀ q ∈ rest, q.1 ≠ f :=
      fun q hq => hfresh q (List.mem_cons_of_mem _ hq)
    simp only [List.cons_append, broadcast_loop]
    rw [if_neg (List.not_mem_nil cid), if_pos hc, List.append_eq,
        ih reg hrest hfresh']
    rfl

/-- C9: a multicast over a registry in which exactly one connection's
send fails still delivers to every other (non-excluded) connection in
registry order, removes the failing connection from the registry, and —
being a total function — propagates no error to the caller; the delivered
count is N−1. -/
theorem broadcast_one_dead (pre post : List (String × Conn)) (f : String)
    (cdead : Conn) (hdead : cdead.alive = false)
    (halive : ∀ q ∈ pre ++ post, q.2.alive = true)
    (hfresh : ∀ q ∈ pre, q.1 ≠ f) :
    ConnectionManager.broadcast (pre ++ (f, cdead) :: post) [] =
      (pre ++ post, (pre ++ post).map Prod.fst)
    ∧ ((pre ++ post).map Prod.fst).length
        = (pre ++ (f, cdead) :: post).length - 1 := by
  constructor
  · unfold ConnectionManager.broadcast
    rw [broadcast_loop_one_dead pre post f cdead _ hdead halive hfresh,
        eraseP_first_key pre post f cdead hfresh]
  · simp [List.length_append, List.length_map]

/-- Witness for C9: a three-connection registry whose middle peer is
gone delivers to the outer two and drops the dead entry. -/
theorem broadcast_one_dead_witness :
    ConnectionManager.broadcast
        [("a", ⟨true⟩), ("b", ⟨false⟩), ("c", ⟨true⟩)] [] =
      ([("a", ⟨true⟩), ("c", ⟨true⟩)], ["a", "c"]) :=
  (broadcast_one_dead [("a", ⟨true⟩)] [("c", ⟨true⟩)] "b" ⟨false⟩ rfl
    (by decide) (by decide)).1

/-! ## C8: invalid state-transition requests -/

/-- C8 counterexample: an `advance` (`next_question`) request with no
active game sends no event at all back to the requesting moderator — in
particular no typed error event — and still mutates session state by
resetting the word-cloud finalization flag. -/
theorem invalid_advance_counterexample :
    (handle_next_question_msg [] 0 sIdleEx).2 = []
    ∧ (handle_next_question_msg [] 0 sIdleEx).1 ≠ sIdleEx := by
  decide

/-- C8 (amended): `reveal_answer` with no current question returns the
typed `reveal_error` event to the requesting moderator connection and
mutates nothing; `advance` with no active game (and hence no current
question) is rejected silently — the state machine is left unchanged and
no event is emitted, but the handler still resets the word-cloud
finalization flag. -/
theorem invalid_transition_amended (w2n : String → Option ℚ)
    (db : List QuestionRec) (now : ℚ) (s : SessionState)
    (rows : List AnswerRow) :
    (s.current_question = none →
      handle_reveal_answer w2n s rows =
        (s, rows, [(Target.toRequester, ServerEvent.reveal_error)]))
    ∧ (s.current_game = none → s.current_question = none →
      handle_next_question_msg db now s =
        ({s with word_cloud_scored := false}, [])) := by
  constructor
  · intro h
    unfold handle_reveal_answer
    rw [h]
  · intro hg hq
    have h1 : next_question db now s = (s, []) := by
      unfold next_question; rw [hg]
    unfold handle_next_question_msg
    rw [h1]
    dsimp only
    rw [hq]

/-- Witness for C8 (amended) on the idle server state. -/
theorem invalid_transition_witness :
    handle_reveal_answer w2nNone sIdleEx [] =
      (sIdleEx, [], [(Target.toRequester, ServerEvent.reveal_error)])
    ∧ handle_next_question_msg [] 0 sIdleEx =
      ({sIdleEx with word_cloud_scored := false}, []) :=
  ⟨(invalid_transition_amended w2nNone [] 0 sIdleEx []).1 rfl,
   (invalid_transition_amended w2nNone [] 0 sIdleEx []).2 rfl rfl⟩

/-! ## C3: the advance operation -/

/-- C3 counterexample: a state whose cursor has reached the snapshotted
question count (`cursor = total_questions = 1`) while the store now holds
two questions: `next_question` mutates the session (advancing the cursor
to 2) although the cursor is not strictly below the snapshot, because the
source re-queries the live count instead of using the snapshot. -/
theorem advance_snapshot_counterexample :
    ¬ (sC3Ex.current_question_index < sC3Ex.total_questions)
    ∧ sC3Ex.current_game.map GameRec.status = some "active"
    ∧ (next_question [qMcEx, qMcEx2] 0 sC3Ex).1 ≠ sC3Ex
    ∧ (next_question [qMcEx, qMcEx2] 0 sC3Ex).1.current_question_index = 2 := by
  decide

/-- C3 (amended): `next_question` mutates session state — cancelling any
running countdown and phrase-reveal engine, clearing phrase-reveal
ephemeral state, incrementing the cursor, loading the next question in
persisted display order, recording the presentation instant, and
initializing the revealed mask for a phrase-reveal question — exactly
when a game is active and the cursor is strictly below the *current*
question count re-queried from the store (not the count snapshotted at
start); in every other state it returns the state unchanged with no
messages. -/
theorem advance_amended (db : List QuestionRec) (now : ℚ) (s : SessionState) :
    ((s.current_game.map GameRec.status ≠ some "active"
        ∨ db.length ≤ s.current_question_index) →
      next_question db now s = (s, []))
    ∧ (∀ g, s.current_game = some g → g.status = "active" →
        s.current_question_index < db.length →
        ∀ q, (sortQuestions db)[s.current_question_index]? = some q →
          (next_question db now s).1 =
            {s with
              question_timer := s.question_timer.map fun _ => false,
              wof_reveal_task := none,
              wof_winner := none,
              current_question := some q,
              current_question_index := s.current_question_index + 1,
              question_start_time := some now,
              wof_revealed_indices :=
                if q.type = "wheel_of_fortune"
                then some (wofInitialMask q.correct_answer) else none}) := by
  constructor
  · intro h
    unfold next_question
    cases hcg : s.current_game with
    | none => rfl
    | some g =>
      dsimp only
      by_cases hst : g.status = "active"
      · have hlen : db.length ≤ s.current_question_index := by
          rcases h with h | h
          · exact absurd (by simp [hcg, hst]) h
          · exact h
        rw [if_neg (by simp [hst]), if_pos hlen]
      · rw [if_pos hst]
  · intro g hg hst hlt q hq
    unfold next_question
    rw [hg]
    dsimp only
    rw [if_neg (by simp [hst]), if_neg (not_le.mpr hlt), hq]
    dsimp only
    by_cases hw : q.type = "wheel_of_fortune"
    · rw [if_pos hw, if_pos hw]
    · rw [if_neg hw, if_neg hw]

/-- Witness for C3 (amended): the idle state is left unchanged; the
active state of the counterexample (cursor 1, two stored questions)
advances to the second question in display order. -/
theorem advance_amended_witness :
    next_question [] 0 sIdleEx = (sIdleEx, [])
    ∧ (next_question [qMcEx, qMcEx2] 0 sC3Ex).1 =
      {sC3Ex with
        question_timer := some false,
        wof_reveal_task := none,
        wof_winner := none,
        current_question := some qMcEx2,
        current_question_index := 2,
        question_start_time := some 0,
        wof_revealed_indices := none} :=
  ⟨(advance_amended [] 0 sIdleEx).1 (Or.inl (by decide)),
   (advance_amended [qMcEx, qMcEx2] 0 sC3Ex).2 ⟨1, "active"⟩ rfl rfl
     (by decide) qMcEx2 (by decide)⟩

/-! ## C4: the phrase-reveal winner is immutable -/

lemma score_word_cloud_winner (s : SessionState) (rows : List AnswerRow)
    (b : Bool) :
    (score_word_cloud_and_reveal s rows b).1.wof_winner = s.wof_winner := by
  unfold score_word_cloud_and_reveal
  by_cases h : s.word_cloud_scored
  · rw [if_pos h]
  · rw [if_neg h]
    dsimp only
    split
    · split
      · rfl
      · rfl
    · rfl

lemma afterWrites_winner (s : SessionState) (rows : List AnswerRow)
    (next_id : ℕ) (existing0 : Option AnswerRow) (p : ParticipantRec)
    (m : AnswerMsg) (gid : Option ℕ) (iwc ok : Bool) (sc : ℤ) (now : ℚ)
    (msgs0 : List (Target × ServerEvent)) (pc : ℕ) :
    (afterWrites s rows next_id existing0 p m gid iwc ok sc now
        msgs0 pc).session.wof_winner = s.wof_winner := by
  unfold afterWrites
  dsimp only
  split
  · split
    · split
      · exact score_word_cloud_winner s
          (genericWrite rows next_id existing0 p m gid iwc ok sc now).1 false
      · rfl
    · rfl
  · rfl

/-- C4: for a phrase-reveal (wheel_of_fortune) question, once a winner is
set it is never overwritten by any later submission — the winner after
processing any answer message is the winner before — and every further
submission from the winner themself to the current phrase-reveal question
is rejected outright: the handler returns with session state, answer
table, id counter and message trace untouched (and the connection loop
closed). -/
theorem wof_winner_immutable (w2n : String → Option ℚ)
    (simO : String → String → ℚ) (pc : ℕ) (now : ℚ) (s : SessionState)
    (rows : List AnswerRow) (next_id : ℕ) (p : ParticipantRec)
    (m : AnswerMsg) (w : String) (hw : s.wof_winner = some w) :
    (handle_answer w2n simO pc now s rows next_id p m).session.wof_winner
        = some w
    ∧ (∀ cq, s.current_question = some cq → cq.type = "wheel_of_fortune" →
        m.question_id = cq.id → p.name = w →
        handle_answer w2n simO pc now s rows next_id p m =
          ⟨s, rows, next_id, [], true⟩) := by
  constructor
  · unfold handle_answer
    dsimp only
    cases hq : s.current_question with
    | none => rw [afterWrites_winner]; exact hw
    | some cq =>
      dsimp only
      by_cases hcond : cq.type = "wheel_of_fortune" ∧ m.question_id = cq.id
      · rw [if_pos hcond]
        by_cases hgw : s.wof_winner = some p.name
        · rw [if_pos hgw]
          dsimp only
          exact hw
        · rw [if_neg hgw]
          rw [afterWrites_winner]
          dsimp only
          rw [hw]
          simp
      · rw [if_neg hcond]
        rw [afterWrites_winner]
        exact hw
  · intro cq hcq htype hqid hname
    unfold handle_answer
    rw [hcq]
    dsimp only
    rw [if_pos ⟨htype, hqid⟩, if_pos (by rw [hw, hname])]

/-- Witness for C4: with `"bob"` already the winner, a correct guess by
`"alice"` leaves the winner unchanged, and a submission by `"bob"`
himself returns with nothing mutated. -/
theorem wof_winner_immutable_witness :
    (handle_answer w2nNone simC7 5 5 {sWofEx with wof_winner := some "bob"}
        [] 1 ⟨3, "alice"⟩ ⟨7, "ho ho"⟩).session.wof_winner = some "bob"
    ∧ handle_answer w2nNone simC7 5 5 {sWofEx with wof_winner := some "bob"}
        [] 1 ⟨4, "bob"⟩ ⟨7, "x"⟩ =
      ⟨{sWofEx with wof_winner := some "bob"}, [], 1, [], true⟩ :=
  ⟨(wof_winner_immutable w2nNone simC7 5 5
      {sWofEx with wof_winner := some "bob"} [] 1 ⟨3, "alice"⟩ ⟨7, "ho ho"⟩
      "bob" rfl).1,
   (wof_winner_immutable w2nNone simC7 5 5
      {sWofEx with wof_winner := some "bob"} [] 1 ⟨4, "bob"⟩ ⟨7, "x"⟩
      "bob" rfl).2 qWofEx rfl rfl rfl rfl⟩

/-! ## C1: the one-row-per-triple invariant (violated by the code) -/

/-- C1 (failing input): with the wheel-of-fortune question current, an
active game and an empty answer table, one single submission by a fresh
participant produces **two** `Answer` rows for the same
(participant, question, game) triple, each with `retry_count = 1`: the
wheel-of-fortune block inserts one row and the generic write block —
reached because the source falls through after the wheel-of-fortune
logic — inserts a second, so the at-most-one-row invariant is violated
and N resubmissions do not yield one row with `retry_count = N`. -/
theorem wof_submission_duplicates_rows :
    (handle_answer w2nNone simC7 5 5 sWofEx [] 1 ⟨3, "alice"⟩
        ⟨7, "wrong"⟩).rows.length = 2
    ∧ ((handle_answer w2nNone simC7 5 5 sWofEx [] 1 ⟨3, "alice"⟩
        ⟨7, "wrong"⟩).rows.filter fun r =>
          decide (r.user_id = 3 ∧ r.question_id = 7 ∧ r.game_id = some 1)).length
        = 2
    ∧ (handle_answer w2nNone simC7 5 5 sWofEx [] 1 ⟨3, "alice"⟩
        ⟨7, "wrong"⟩).rows.map AnswerRow.retry_count = [1, 1] := by
  refine ⟨?_, ?_, ?_⟩ <;> rfl

/-! ## C2: lemmas about the stable sort and the top-10 machinery -/

lemma insertByDiff_perm (x : ℕ × ℚ) (l : List (ℕ × ℚ)) :
    List.Perm (insertByDiff x l) (x :: l) := by
  induction l with
  | nil => exact List.Perm.refl _
  | cons y ys ih =>
    unfold insertByDiff
    by_cases h : x.2 < y.2
    · rw [if_pos h]
    · rw [if_neg h]
      exact (ih.cons y).trans (List.Perm.swap x y ys)

lemma sortByDiff_perm (l : List (ℕ × ℚ)) : List.Perm (sortByDiff l) l := by
  induction l with
  | nil => exact List.Perm.refl _
  | cons x xs ih => exact (insertByDiff_perm x (sortByDiff xs)).trans (ih.cons x)

lemma mem_insertByDiff {a x : ℕ × ℚ} {l : List (ℕ × ℚ)} :
    a ∈ insertByDiff x l ↔ a = x ∨ a ∈ l := by
  rw [(insertByDiff_perm x l).mem_iff, List.mem_cons]

lemma insertByDiff_pairwise {l : List (ℕ × ℚ)}
    (h : l.Pairwise fun a b => a.2 ≤ b.2) (x : ℕ × ℚ) :
    (insertByDiff x l).Pairwise fun a b => a.2 ≤ b.2 := by
  induction l with
  | nil => simp [insertByDiff]
  | cons y ys ih =>
    rw [List.pairwise_cons] at h
    obtain ⟨hy, hys⟩ := h
    unfold insertByDiff
    by_cases hxy : x.2 < y.2
    · rw [if_pos hxy]
      refine List.Pairwise.cons ?_ (List.Pairwise.cons hy hys)
      intro z hz
      rcases List.mem_cons.mp hz with rfl | hz
      · exact le_of_lt hxy
      · exact le_trans (le_of_lt hxy) (hy z hz)
    · rw [if_neg hxy]
      refine List.Pairwise.cons ?_ (ih hys)
      intro z hz
      rcases mem_insertByDiff.mp hz with rfl | hz
      · exact le_of_not_lt hxy
      · exact hy z hz

lemma sortByDiff_pairwise (l : List (ℕ × ℚ)) :
    (sortByDiff l).Pairwise fun a b => a.2 ≤ b.2 := by
  induction l with
  | nil => exact List.Pairwise.nil
  | cons x xs ih => exact insertByDiff_pairwise ih x

lemma sorted_take_drop {l : List (ℕ × ℚ)}
    (h : l.Pairwise fun a b => a.2 ≤ b.2) (n : ℕ) :
    ∀ p ∈ l.take n, ∀ q ∈ l.drop n, p.2 ≤ q.2 := by
  have h2 : (l.take n ++ l.drop n).Pairwise fun a b => a.2 ≤ b.2 := by
    rw [List.take_append_drop]; exact h
  exact fun p hp q hq => (List.pairwise_append.mp h2).2.2 p hp q hq

lemma le_listMaxDiff_init (m : ℚ) (l : List (ℕ × ℚ)) : m ≤ listMaxDiff m l := by
  induction l generalizing m with
  | nil => exact le_refl m
  | cons x xs ih => exact le_trans (le_max_left m x.2) (ih (max m x.2))

lemma mem_le_listMaxDiff {x : ℕ × ℚ} {l : List (ℕ × ℚ)} (hx : x ∈ l)
    (m : ℚ) : x.2 ≤ listMaxDiff m l := by
  induction l generalizing m with
  | nil => exact absurd hx (List.not_mem_nil x)
  | cons y ys ih =>
    rcases List.mem_cons.mp hx with rfl | hx'
    · exact le_trans (le_max_right m x.2) (le_listMaxDiff_init _ _)
    · exact ih hx' _

lemma listMaxDiff_le {l : List (ℕ × ℚ)} {B : ℚ} (m : ℚ) (hm : m ≤ B)
    (h : ∀ x ∈ l, x.2 ≤ B) : listMaxDiff m l ≤ B := by
  induction l generalizing m with
  | nil => exact hm
  | cons y ys ih =>
    exact ih _ (max_le hm (h y (List.mem_cons_self _ _)))
      fun x hx => h x (List.mem_cons_of_mem _ hx)

lemma proportionalScore_pos {M d : ℚ} (hd : 0 < d) (hdM : d ≤ M) :
    0 < proportionalScore M d ∧ proportionalScore M d ≤ 25 := by
  have hM : 0 < M := lt_of_lt_of_le hd hdM
  unfold proportionalScore
  rw [if_neg (ne_of_gt hM)]
  have hr1 : d / M ≤ 1 := (div_le_one hM).mpr hdM
  have hr0 : 0 < d / M := div_pos hd hM
  have h1 : (0 : ℚ) ≤ 25 * (1 - d / M) := by nlinarith
  have h2 : 25 * (1 - d / M) < 25 := by nlinarith
  rw [pyInt_of_nonneg h1]
  constructor
  · have := Int.floor_nonneg.mpr h1
    omega
  · have : ⌊25 * (1 - d / M)⌋ < 25 := Int.floor_lt.mpr (by exact_mod_cast h2)
    omega

lemma proportionalScore_antitone {M d d' : ℚ} (hdd : d ≤ d')
    (hd'M : d' ≤ M) (hM : 0 < M) :
    proportionalScore M d' ≤ proportionalScore M d := by
  unfold proportionalScore
  rw [if_neg (ne_of_gt hM), if_neg (ne_of_gt hM)]
  have ha : (0 : ℚ) ≤ 25 * (1 - d' / M) := by
    have : d' / M ≤ 1 := (div_le_one hM).mpr hd'M
    nlinarith
  have hb : 25 * (1 - d' / M) ≤ 25 * (1 - d / M) := by
    have : d / M ≤ d' / M := by gcongr
    nlinarith
  rw [pyInt_of_nonneg ha, pyInt_of_nonneg (le_trans ha hb)]
  have := Int.floor_le_floor hb
  omega

lemma proportionalScore_self {M : ℚ} (hM : 0 < M) :
    proportionalScore M M = 1 := by
  unfold proportionalScore
  rw [if_neg (ne_of_gt hM), div_self (ne_of_gt hM)]
  norm_num [pyInt]

lemma mem_nonExactPairs_iff {w2n : String → Option ℚ} {rows : List AnswerRow}
    {question_id : ℕ} {game_id : Option ℕ} {c : ℚ} {pr : ℕ × ℚ} :
    pr ∈ nonExactPairs w2n rows question_id game_id c ↔
      ∃ a ∈ rows, a.question_id = question_id ∧ a.game_id = game_id
        ∧ ∃ v, extract_number_from_text w2n a.content = some v ∧ v ≠ c
            ∧ pr = (a.id, pyAbs (v - c)) := by
  unfold nonExactPairs fitbScope
  rw [List.mem_filterMap]
  constructor
  · rintro ⟨a, ha, heq⟩
    rw [List.mem_filter] at ha
    obtain ⟨ham, hcond⟩ := ha
    have hsc := of_decide_eq_true hcond
    cases hv : extract_number_from_text w2n a.content with
    | none => rw [hv] at heq; exact absurd heq (by simp)
    | some v =>
      rw [hv] at heq
      dsimp only at heq
      by_cases hvc : v = c
      · rw [if_pos hvc] at heq; exact absurd heq (by simp)
      · rw [if_neg hvc] at heq
        exact ⟨a, ham, hsc.1, hsc.2, v, hv, hvc, (Option.some_inj.mp heq).symm⟩
  · rintro ⟨a, ham, hq, hg, v, hv, hvc, rfl⟩
    refine ⟨a, ?_, ?_⟩
    · rw [List.mem_filter]; exact ⟨ham, decide_eq_true ⟨hq, hg⟩⟩
    · rw [hv]
      dsimp only
      rw [if_neg hvc]

lemma mem_top10_mem_nonExact {w2n : String → Option ℚ}
    {rows : List AnswerRow} {question_id : ℕ} {game_id : Option ℕ} {c : ℚ}
    {q : ℕ × ℚ} (h : q ∈ top10Pairs w2n rows question_id game_id c) :
    q ∈ nonExactPairs w2n rows question_id game_id c :=
  (sortByDiff_perm _).mem_iff.mp (List.mem_of_mem_take h)

lemma top10_diff_pos {w2n : String → Option ℚ} {rows : List AnswerRow}
    {question_id : ℕ} {game_id : Option ℕ} {c : ℚ} {q : ℕ × ℚ}
    (h : q ∈ top10Pairs w2n rows question_id game_id c) : 0 < q.2 := by
  obtain ⟨a, _, _, _, v, _, hvc, rfl⟩ :=
    mem_nonExactPairs_iff.mp (mem_top10_mem_nonExact h)
  exact pyAbs_pos (sub_ne_zero_of_ne hvc)

lemma top10_diff_le_max {w2n : String → Option ℚ} {rows : List AnswerRow}
    {question_id : ℕ} {game_id : Option ℕ} {c : ℚ} {q : ℕ × ℚ}
    (h : q ∈ top10Pairs w2n rows question_id game_id c) :
    q.2 ≤ top10MaxDiff w2n rows question_id game_id c := by
  unfold top10MaxDiff
  cases ht : top10Pairs w2n rows question_id game_id c with
  | nil => rw [ht] at h; exact absurd h (List.not_mem_nil q)
  | cons p rest =>
    rw [ht] at h
    rcases List.mem_cons.mp h with rfl | h'
    · exact le_listMaxDiff_init _ _
    · exact mem_le_listMaxDiff h' _

lemma top10MaxDiff_le {w2n : String → Option ℚ} {rows : List AnswerRow}
    {question_id : ℕ} {game_id : Option ℕ} {c : ℚ} {B : ℚ} {p0 : ℕ × ℚ}
    {rest : List (ℕ × ℚ)}
    (ht : top10Pairs w2n rows question_id game_id c = p0 :: rest)
    (h : ∀ q ∈ top10Pairs w2n rows question_id game_id c, q.2 ≤ B) :
    top10MaxDiff w2n rows question_id game_id c ≤ B := by
  unfold top10MaxDiff
  rw [ht]
  refine listMaxDiff_le _ (h p0 (by rw [ht]; exact List.mem_cons_self _ _)) ?_
  intro x hx
  exact h x (by rw [ht]; exact List.mem_cons_of_mem _ hx)

lemma lookup_mem {k : ℕ} {v : ℤ} {l : List (ℕ × ℤ)}
    (h : List.lookup k l = some v) : (k, v) ∈ l := by
  induction l with
  | nil => exact absurd h (by simp [List.lookup])
  | cons x xs ih =>
    rw [List.lookup] at h
    by_cases hk : k = x.1
    · rw [show (k == x.1) = true from beq_iff_eq.mpr hk] at h
      dsimp only at h
      rw [Option.some_inj] at h
      subst hk
      rw [← h]
      exact List.mem_cons_self _ _
    · rw [show (k == x.1) = false from beq_eq_false_iff_ne.mpr hk] at h
      dsimp only at h
      exact List.mem_cons_of_mem _ (ih h)

lemma lookup_eq_none_iff {k : ℕ} {l : List (ℕ × ℤ)} :
    List.lookup k l = none ↔ k ∉ l.map Prod.fst := by
  induction l with
  | nil => simp [List.lookup]
  | cons x xs ih =>
    rw [List.lookup]
    by_cases hk : k = x.1
    · rw [show (k == x.1) = true from beq_iff_eq.mpr hk]
      simp [hk]
    · rw [show (k == x.1) = false from beq_eq_false_iff_ne.mpr hk]
      simp [hk, ih]

lemma finalizeRow_outside {w2n : String → Option ℚ} {question_id : ℕ}
    {game_id : Option ℕ} {c : ℚ} {asg : List (ℕ × ℤ)} {a : AnswerRow}
    (h : ¬ (a.question_id = question_id ∧ a.game_id = game_id)) :
    finalizeRow w2n question_id game_id c asg a = a := by
  unfold finalizeRow; rw [if_neg h]

lemma finalizeRow_skip {w2n : String → Option ℚ} {question_id : ℕ}
    {game_id : Option ℕ} {c : ℚ} {asg : List (ℕ × ℤ)} {a : AnswerRow}
    (hsc : a.question_id = question_id ∧ a.game_id = game_id)
    (hv : extract_number_from_text w2n a.content = none) :
    finalizeRow w2n question_id game_id c asg a = a := by
  unfold finalizeRow; rw [if_pos hsc, hv]

lemma finalizeRow_exact {w2n : String → Option ℚ} {question_id : ℕ}
    {game_id : Option ℕ} {c : ℚ} {asg : List (ℕ × ℤ)} {a : AnswerRow}
    (hsc : a.question_id = question_id ∧ a.game_id = game_id)
    (hv : extract_number_from_text w2n a.content = some c) :
    finalizeRow w2n question_id game_id c asg a =
      {a with score := 30, is_correct := true} := by
  unfold finalizeRow
  rw [if_pos hsc, hv]
  dsimp only
  rw [if_pos rfl]

lemma finalizeRow_assigned {w2n : String → Option ℚ} {question_id : ℕ}
    {game_id : Option ℕ} {c v : ℚ} {asg : List (ℕ × ℤ)} {a : AnswerRow}
    {sc : ℤ} (hsc : a.question_id = question_id ∧ a.game_id = game_id)
    (hv : extract_number_from_text w2n a.content = some v) (hvc : v ≠ c)
    (hl : List.lookup a.id asg = some sc) :
    finalizeRow w2n question_id game_id c asg a =
      {a with score := sc, is_correct := false} := by
  unfold finalizeRow
  rw [if_pos hsc, hv]
  dsimp only
  rw [if_neg hvc, hl]

lemma finalizeRow_zeroed {w2n : String → Option ℚ} {question_id : ℕ}
    {game_id : Option ℕ} {c v : ℚ} {asg : List (ℕ × ℤ)} {a : AnswerRow}
    (hsc : a.question_id = question_id ∧ a.game_id = game_id)
    (hv : extract_number_from_text w2n a.content = some v) (hvc : v ≠ c)
    (hl : List.lookup a.id asg = none) :
    finalizeRow w2n question_id game_id c asg a =
      {a with score := 0, is_correct := false} := by
  unfold finalizeRow
  rw [if_pos hsc, hv]
  dsimp only
  rw [if_neg hvc, hl]

lemma finalizeRow_fields (w2n : String → Option ℚ) (question_id : ℕ)
    (game_id : Option ℕ) (c : ℚ) (asg : List (ℕ × ℤ)) (a : AnswerRow) :
    (finalizeRow w2n question_id game_id c asg a).id = a.id
    ∧ (finalizeRow w2n question_id game_id c asg a).content = a.content
    ∧ (finalizeRow w2n question_id game_id c asg a).question_id = a.question_id
    ∧ (finalizeRow w2n question_id game_id c asg a).game_id = a.game_id := by
  unfold finalizeRow
  by_cases hsc : a.question_id = question_id ∧ a.game_id = game_id
  · rw [if_pos hsc]
    cases hv : extract_number_from_text w2n a.content with
    | none => exact ⟨rfl, rfl, rfl, rfl⟩
    | some v =>
      dsimp only
      by_cases hvc : v = c
      · rw [if_pos hvc]; exact ⟨rfl, rfl, rfl, rfl⟩
      · rw [if_neg hvc]
        cases hl : List.lookup a.id asg with
        | none => exact ⟨rfl, rfl, rfl, rfl⟩
        | some sc => exact ⟨rfl, rfl, rfl, rfl⟩
  · rw [if_neg hsc]; exact ⟨rfl, rfl, rfl, rfl⟩

lemma compute_numeric_score_user_none (w2n : String → Option ℚ) (ms : ℤ)
    (cs u : String) (hu : extract_number_from_text w2n u = none) :
    compute_numeric_score w2n ms cs u = 0 := by
  unfold compute_numeric_score
  cases hcs : extract_number_from_text w2n cs with
  | none => rfl
  | some cv => rw [hu]

lemma nonExactPairs_map (w2n : String → Option ℚ) (rows : List AnswerRow)
    (question_id : ℕ) (game_id : Option ℕ) (c : ℚ) (g : AnswerRow → AnswerRow)
    (hg : ∀ a, (g a).id = a.id ∧ (g a).content = a.content
        ∧ (g a).question_id = a.question_id ∧ (g a).game_id = a.game_id) :
    nonExactPairs w2n (rows.map g) question_id game_id c
      = nonExactPairs w2n rows question_id game_id c := by
  unfold nonExactPairs fitbScope
  induction rows with
  | nil => rfl
  | cons a l ih =>
    obtain ⟨h1, h2, h3, h4⟩ := hg a
    simp only [List.map_cons, List.filter_cons, h3, h4]
    by_cases hc1 : a.question_id = question_id ∧ a.game_id = game_id
    · rw [if_pos (decide_eq_true hc1), if_pos (decide_eq_true hc1)]
      simp only [List.filterMap_cons, h1, h2]
      simp only [ih]
    · rw [if_neg (by simpa using hc1), if_neg (by simpa using hc1)]
      exact ih

lemma nonExact_ids_sublist (w2n : String → Option ℚ) (rows : List AnswerRow)
    (question_id : ℕ) (game_id : Option ℕ) (c : ℚ) :
    List.Sublist ((nonExactPairs w2n rows question_id game_id c).map Prod.fst)
      (rows.map AnswerRow.id) := by
  unfold nonExactPairs
  have h2 : ∀ l : List AnswerRow,
      List.Sublist ((l.filterMap fun a =>
        match extract_number_from_text w2n a.content with
        | none => none
        | some v =>
          if v = c then none else some (a.id, pyAbs (v - c))).map Prod.fst)
        (l.map AnswerRow.id) := by
    intro l
    induction l with
    | nil => exact List.Sublist.refl _
    | cons a t ih =>
      rw [List.filterMap_cons]
      cases hE : extract_number_from_text w2n a.content with
      | none => exact ih.cons _
      | some v =>
        dsimp only
        by_cases hvc : v = c
        · rw [if_pos hvc]; exact ih.cons _
        · rw [if_neg hvc]
          exact ih.cons₂ _
  exact (h2 _).trans ((List.filter_sublist rows).map AnswerRow.id)

lemma nonExact_pair_unique {w2n : String → Option ℚ} {rows : List AnswerRow}
    {question_id : ℕ} {game_id : Option ℕ} {c : ℚ}
    (hids : (rows.map AnswerRow.id).Nodup)
    {a : AnswerRow} (ha : a ∈ rows)
    (hsc : a.question_id = question_id ∧ a.game_id = game_id)
    {v : ℚ} (hv : extract_number_from_text w2n a.content = some v) :
    ∀ pr ∈ nonExactPairs w2n rows question_id game_id c,
      pr.1 = a.id → pr = (a.id, pyAbs (v - c)) := by
  intro pr hpr h1
  obtain ⟨b, hb, _, _, vb, hvb, _, rfl⟩ := mem_nonExactPairs_iff.mp hpr
  have hba : b = a := List.inj_on_of_nodup_map hids hb ha h1
  subst hba
  rw [hv] at hvb
  rw [Option.some_inj] at hvb
  rw [hvb]

lemma finalizeRow_idem (w2n : String → Option ℚ) (question_id : ℕ)
    (game_id : Option ℕ) (c : ℚ) (asg : List (ℕ × ℤ)) (a : AnswerRow) :
    finalizeRow w2n question_id game_id c asg
        (finalizeRow w2n question_id game_id c asg a)
      = finalizeRow w2n question_id game_id c asg a := by
  by_cases hsc : a.question_id = question_id ∧ a.game_id = game_id
  · cases hv : extract_number_from_text w2n a.content with
    | none =>
      rw [finalizeRow_skip hsc hv]
      exact finalizeRow_skip hsc hv
    | some v =>
      by_cases hvc : v = c
      · have hv' : extract_number_from_text w2n a.content = some c := by
          rw [hv, hvc]
        calc finalizeRow w2n question_id game_id c asg
              (finalizeRow w2n question_id game_id c asg a)
            = finalizeRow w2n question_id game_id c asg
                {a with score := 30, is_correct := true} := by
              rw [finalizeRow_exact hsc hv']
          _ = {a with score := 30, is_correct := true} :=
              finalizeRow_exact hsc hv'
          _ = finalizeRow w2n question_id game_id c asg a :=
              (finalizeRow_exact hsc hv').symm
      · cases hl : List.lookup a.id asg with
        | some sc =>
          calc finalizeRow w2n question_id game_id c asg
                (finalizeRow w2n question_id game_id c asg a)
              = finalizeRow w2n question_id game_id c asg
                  {a with score := sc, is_correct := false} := by
                rw [finalizeRow_assigned hsc hv hvc hl]
            _ = {a with score := sc, is_correct := false} :=
                finalizeRow_assigned hsc hv hvc hl
            _ = finalizeRow w2n question_id game_id c asg a :=
                (finalizeRow_assigned hsc hv hvc hl).symm
        | none =>
          calc finalizeRow w2n question_id game_id c asg
                (finalizeRow w2n question_id game_id c asg a)
              = finalizeRow w2n question_id game_id c asg
                  {a with score := 0, is_correct := false} := by
                rw [finalizeRow_zeroed hsc hv hvc hl]
            _ = {a with score := 0, is_correct := false} :=
                finalizeRow_zeroed hsc hv hvc hl
            _ = finalizeRow w2n question_id game_id c asg a :=
                (finalizeRow_zeroed hsc hv hvc hl).symm
  · rw [finalizeRow_outside hsc]
    exact finalizeRow_outside hsc

lemma compute_top10_eq_of_none {w2n : String → Option ℚ}
    {rows : List AnswerRow} {question_id : ℕ} {game_id : Option ℕ}
    {ca : String} (hc : extract_number_from_text w2n ca = none) :
    compute_top10_proportional_scores w2n rows question_id game_id ca = rows := by
  unfold compute_top10_proportional_scores; rw [hc]

lemma compute_top10_eq_of_empty {w2n : String → Option ℚ}
    {rows : List AnswerRow} {question_id : ℕ} {game_id : Option ℕ}
    {ca : String} {c : ℚ} (hc : extract_number_from_text w2n ca = some c)
    (ht : top10Pairs w2n rows question_id game_id c = []) :
    compute_top10_proportional_scores w2n rows question_id game_id ca = rows := by
  unfold compute_top10_proportional_scores
  rw [hc]
  dsimp only
  rw [if_pos ht]

lemma compute_top10_eq_map {w2n : String → Option ℚ} {rows : List AnswerRow}
    {question_id : ℕ} {game_id : Option ℕ} {ca : String} {c : ℚ}
    (hc : extract_number_from_text w2n ca = some c)
    (ht : top10Pairs w2n rows question_id game_id c ≠ []) :
    compute_top10_proportional_scores w2n rows question_id game_id ca =
      rows.map
        (finalizeRow w2n question_id game_id c
          (top10Assignments w2n rows question_id game_id c)) := by
  unfold compute_top10_proportional_scores
  rw [hc]
  dsimp only
  rw [if_neg ht]

lemma top10Pairs_map (w2n : String → Option ℚ) (rows : List AnswerRow)
    (question_id : ℕ) (game_id : Option ℕ) (c : ℚ) (g : AnswerRow → AnswerRow)
    (hg : ∀ a, (g a).id = a.id ∧ (g a).content = a.content
        ∧ (g a).question_id = a.question_id ∧ (g a).game_id = a.game_id) :
    top10Pairs w2n (rows.map g) question_id game_id c
      = top10Pairs w2n rows question_id game_id c := by
  unfold top10Pairs
  rw [nonExactPairs_map w2n rows question_id game_id c g hg]

lemma top10MaxDiff_map (w2n : String → Option ℚ) (rows : List AnswerRow)
    (question_id : ℕ) (game_id : Option ℕ) (c : ℚ) (g : AnswerRow → AnswerRow)
    (hg : ∀ a, (g a).id = a.id ∧ (g a).content = a.content
        ∧ (g a).question_id = a.question_id ∧ (g a).game_id = a.game_id) :
    top10MaxDiff w2n (rows.map g) question_id game_id c
      = top10MaxDiff w2n rows question_id game_id c := by
  unfold top10MaxDiff
  rw [top10Pairs_map w2n rows question_id game_id c g hg]

lemma top10Assignments_map (w2n : String → Option ℚ) (rows : List AnswerRow)
    (question_id : ℕ) (game_id : Option ℕ) (c : ℚ) (g : AnswerRow → AnswerRow)
    (hg : ∀ a, (g a).id = a.id ∧ (g a).content = a.content
        ∧ (g a).question_id = a.question_id ∧ (g a).game_id = a.game_id) :
    top10Assignments w2n (rows.map g) question_id game_id c
      = top10Assignments w2n rows question_id game_id c := by
  unfold top10Assignments
  rw [top10Pairs_map w2n rows question_id game_id c g hg,
    top10MaxDiff_map w2n rows question_id game_id c g hg]

lemma compute_top10_idem (w2n : String → Option ℚ) (rows : List AnswerRow)
    (question_id : ℕ) (game_id : Option ℕ) (ca : String) :
    compute_top10_proportional_scores w2n
        (compute_top10_proportional_scores w2n rows question_id game_id ca)
        question_id game_id ca
      = compute_top10_proportional_scores w2n rows question_id game_id ca := by
  cases hc : extract_number_from_text w2n ca with
  | none => rw [compute_top10_eq_of_none hc, compute_top10_eq_of_none hc]
  | some c =>
    by_cases ht : top10Pairs w2n rows question_id game_id c = []
    · rw [compute_top10_eq_of_empty hc ht, compute_top10_eq_of_empty hc ht]
    · have hfields := finalizeRow_fields w2n question_id game_id c
        (top10Assignments w2n rows question_id game_id c)
      have hrows' := compute_top10_eq_map hc ht
      have htop := top10Pairs_map w2n rows question_id game_id c _ hfields
      have hasg := top10Assignments_map w2n rows question_id game_id c _ hfields
      have ht' : top10Pairs w2n
          (rows.map (finalizeRow w2n question_id game_id c
            (top10Assignments w2n rows question_id game_id c)))
          question_id game_id c ≠ [] := by
        rw [htop]; exact ht
      rw [hrows', compute_top10_eq_map hc ht', hasg, List.map_map]
      have hgg : (finalizeRow w2n question_id game_id c
            (top10Assignments w2n rows question_id game_id c))
          ∘ (finalizeRow w2n question_id game_id c
            (top10Assignments w2n rows question_id game_id c))
          = finalizeRow w2n question_id game_id c
            (top10Assignments w2n rows question_id game_id c) :=
        funext fun a => finalizeRow_idem w2n question_id game_id c _ a
      rw [hgg]

lemma top10Assignments_keys (w2n : String → Option ℚ) (rows : List AnswerRow)
    (question_id : ℕ) (game_id : Option ℕ) (c : ℚ) :
    (top10Assignments w2n rows question_id game_id c).map Prod.fst
      = (top10Pairs w2n rows question_id game_id c).map Prod.fst := by
  unfold top10Assignments
  rw [List.map_map]
  rfl

/-- C2: running top-10 proportional finalization over the answers of a
numeric fill-in-the-blank question (whose stored scores come from the
submission pipeline) keeps exactly ten winners when at least ten
non-exact numeric submissions exist; every exact numeric match is set to
score 30 and marked correct; each of the ten closest non-exact
submissions gets the proportional score in `(0, 25]` (the farthest of
the ten getting exactly 1, and closer winners never scoring below
farther ones); every other non-exact numeric submission is zeroed; rows
without an extractable number keep their submission-time zero; and the
pass is idempotent. -/
theorem top10_finalization (w2n : String → Option ℚ) (rows : List AnswerRow)
    (qid : ℕ) (gid : Option ℕ) (ca : String) (c : ℚ)
    (hc : extract_number_from_text w2n ca = some c)
    (hids : (rows.map AnswerRow.id).Nodup)
    (hpipe : ∀ r ∈ rows,
      r.score = compute_numeric_score w2n 30 ca r.content
      ∧ r.is_correct = decide (0 < compute_numeric_score w2n 30 ca r.content))
    (h10 : 10 ≤ (nonExactPairs w2n rows qid gid c).length) :
    (top10Pairs w2n rows qid gid c).length = 10
    ∧ (∀ r ∈ compute_top10_proportional_scores w2n rows qid gid ca,
        r.question_id = qid → r.game_id = gid →
        extract_number_from_text w2n r.content = some c →
        r.score = 30 ∧ r.is_correct = true)
    ∧ (∀ r ∈ compute_top10_proportional_scores w2n rows qid gid ca,
        r.question_id = qid → r.game_id = gid →
        ∀ v, extract_number_from_text w2n r.content = some v → v ≠ c →
          r.is_correct = false
          ∧ (r.id ∈ (top10Pairs w2n rows qid gid c).map Prod.fst →
              r.score = proportionalScore (top10MaxDiff w2n rows qid gid c)
                  (pyAbs (v - c))
              ∧ 0 < r.score ∧ r.score ≤ 25
              ∧ ((∀ q ∈ top10Pairs w2n rows qid gid c, q.2 ≤ pyAbs (v - c)) →
                  r.score = 1))
          ∧ (r.id ∉ (top10Pairs w2n rows qid gid c).map Prod.fst →
              r.score = 0))
    ∧ (∀ q ∈ top10Pairs w2n rows qid gid c,
        ∀ q2 ∈ nonExactPairs w2n rows qid gid c,
          q2.1 ∉ (top10Pairs w2n rows qid gid c).map Prod.fst → q.2 ≤ q2.2)
    ∧ (∀ q ∈ top10Pairs w2n rows qid gid c,
        ∀ q2 ∈ top10Pairs w2n rows qid gid c, q.2 ≤ q2.2 →
          proportionalScore (top10MaxDiff w2n rows qid gid c) q2.2
            ≤ proportionalScore (top10MaxDiff w2n rows qid gid c) q.2)
    ∧ (∀ r ∈ compute_top10_proportional_scores w2n rows qid gid ca,
        r.question_id = qid → r.game_id = gid →
        extract_number_from_text w2n r.content = none → r.score = 0)
    ∧ compute_top10_proportional_scores w2n
        (compute_top10_proportional_scores w2n rows qid gid ca) qid gid ca
      = compute_top10_proportional_scores w2n rows qid gid ca := by
  have hlen : (top10Pairs w2n rows qid gid c).length = 10 := by
    unfold top10Pairs
    rw [List.length_take, (sortByDiff_perm _).length_eq]
    exact min_eq_left h10
  have ht : top10Pairs w2n rows qid gid c ≠ [] := by
    intro h
    rw [h] at hlen
    exact absurd hlen (by norm_num)
  obtain ⟨p0, prest, hcons⟩ :
      ∃ p0 prest, top10Pairs w2n rows qid gid c = p0 :: prest := by
    cases h : top10Pairs w2n rows qid gid c with
    | nil => exact absurd h ht
    | cons p0 prest => exact ⟨p0, prest, rfl⟩
  have hp0mem : p0 ∈ top10Pairs w2n rows qid gid c := by
    rw [hcons]; exact List.mem_cons_self _ _
  have hMpos : 0 < top10MaxDiff w2n rows qid gid c :=
    lt_of_lt_of_le (top10_diff_pos hp0mem) (top10_diff_le_max hp0mem)
  have hmapeq : compute_top10_proportional_scores w2n rows qid gid ca
      = rows.map (finalizeRow w2n qid gid c
          (top10Assignments w2n rows qid gid c)) :=
    compute_top10_eq_map hc ht
  refine ⟨hlen, ?_, ?_, ?_, ?_, ?_, ?_⟩
  · -- exact matches
    intro r hr hq hg hv
    rw [hmapeq] at hr
    obtain ⟨a, ha, rfl⟩ := List.mem_map.mp hr
    obtain ⟨f1, f2, f3, f4⟩ := finalizeRow_fields w2n qid gid c
      (top10Assignments w2n rows qid gid c) a
    rw [f3] at hq
    rw [f4] at hg
    rw [f2] at hv
    rw [finalizeRow_exact ⟨hq, hg⟩ hv]
    exact ⟨rfl, rfl⟩
  · -- non-exact rows
    intro r hr hq hg v hv hvc
    rw [hmapeq] at hr
    obtain ⟨a, ha, rfl⟩ := List.mem_map.mp hr
    obtain ⟨f1, f2, f3, f4⟩ := finalizeRow_fields w2n qid gid c
      (top10Assignments w2n rows qid gid c) a
    rw [f3] at hq
    rw [f4] at hg
    rw [f2] at hv
    have hpra : (a.id, pyAbs (v - c)) ∈ nonExactPairs w2n rows qid gid c :=
      mem_nonExactPairs_iff.mpr ⟨a, ha, hq, hg, v, hv, hvc, rfl⟩
    cases hl : List.lookup a.id (top10Assignments w2n rows qid gid c) with
    | some sc =>
      rw [finalizeRow_assigned ⟨hq, hg⟩ hv hvc hl]
      have hmem : (a.id, sc) ∈ (top10Pairs w2n rows qid gid c).map
          fun q => (q.1, proportionalScore (top10MaxDiff w2n rows qid gid c) q.2) :=
        lookup_mem hl
      obtain ⟨q, hq10, hqeq⟩ := List.mem_map.mp hmem
      rw [Prod.mk.injEq] at hqeq
      obtain ⟨hqid, hqsc⟩ := hqeq
      have hq_eq : q = (a.id, pyAbs (v - c)) :=
        nonExact_pair_unique hids ha ⟨hq, hg⟩ hv q
          (mem_top10_mem_nonExact hq10) hqid
      have hq2 : q.2 = pyAbs (v - c) := by rw [hq_eq]
      have hpra10 : (a.id, pyAbs (v - c)) ∈ top10Pairs w2n rows qid gid c := by
        rw [← hq_eq]; exact hq10
    -- assemble
      have hdpos : 0 < pyAbs (v - c) := pyAbs_pos (sub_ne_zero_of_ne hvc)
      have hdle : pyAbs (v - c) ≤ top10MaxDiff w2n rows qid gid c := by
        have := top10_diff_le_max hpra10
        simpa using this
      have hscval : sc = proportionalScore (top10MaxDiff w2n rows qid gid c)
          (pyAbs (v - c)) := by
        rw [← hqsc, hq2]
      refine ⟨rfl, ?_, ?_⟩
      · intro _
        refine ⟨by simpa using hscval, ?_, ?_, ?_⟩
        · show 0 < sc
          rw [hscval]
          exact (proportionalScore_pos hdpos hdle).1
        · show sc ≤ 25
          rw [hscval]
          exact (proportionalScore_pos hdpos hdle).2
        · intro hfar
          show sc = 1
          have hMle : top10MaxDiff w2n rows qid gid c ≤ pyAbs (v - c) :=
            top10MaxDiff_le hcons hfar
          have hMeq : pyAbs (v - c) = top10MaxDiff w2n rows qid gid c :=
            le_antisymm hdle hMle
          rw [hscval, hMeq]
          exact proportionalScore_self hMpos
      · intro hnot
        exact absurd (List.mem_map.mpr ⟨q, hq10, hqid⟩) hnot
    | none =>
      rw [finalizeRow_zeroed ⟨hq, hg⟩ hv hvc hl]
      have hnotin : a.id ∉ (top10Pairs w2n rows qid gid c).map Prod.fst := by
        have := lookup_eq_none_iff.mp hl
        rw [top10Assignments_keys] at this
        exact this
      refine ⟨rfl, ?_, fun _ => rfl⟩
      intro hin
      exact absurd hin hnotin
  · -- the ten winners are the closest
    intro q hq10 q2 hq2 hnot
    have hq2sorted : q2 ∈ sortByDiff (nonExactPairs w2n rows qid gid c) :=
      (sortByDiff_perm _).mem_iff.mpr hq2
    have hsplit : q2 ∈ (sortByDiff (nonExactPairs w2n rows qid gid c)).take 10
        ∨ q2 ∈ (sortByDiff (nonExactPairs w2n rows qid gid c)).drop 10 := by
      rw [← List.mem_append, List.take_append_drop]
      exact hq2sorted
    rcases hsplit with htake | hdrop
    · exact absurd (List.mem_map.mpr ⟨q2, htake, rfl⟩) hnot
    · exact sorted_take_drop (sortByDiff_pairwise _) 10 q hq10 q2 hdrop
  · -- proportional scores are antitone in the distance
    intro q _ q2 hq210 hle
    exact proportionalScore_antitone hle (top10_diff_le_max hq210) hMpos
  · -- rows without an extractable number keep their zero
    intro r hr hq hg hv
    rw [hmapeq] at hr
    obtain ⟨a, ha, rfl⟩ := List.mem_map.mp hr
    obtain ⟨f1, f2, f3, f4⟩ := finalizeRow_fields w2n qid gid c
      (top10Assignments w2n rows qid gid c) a
    rw [f3] at hq
    rw [f4] at hg
    rw [f2] at hv
    rw [finalizeRow_skip ⟨hq, hg⟩ hv]
    rw [(hpipe a ha).1]
    exact compute_numeric_score_user_none w2n 30 ca a.content hv
  · exact compute_top10_idem w2n rows qid gid ca

lemma c2_nonExact_len :
    10 ≤ (nonExactPairs w2nNone c2Rows 7 (some 1) 100).length := by
  have hfs : fitbScope c2Rows 7 (some 1) = c2Rows := rfl
  unfold nonExactPairs
  rw [hfs]
  have e100 := extract_val w2nNone "100" 100 rfl
  have e101 := extract_val w2nNone "101" 101 rfl
  have e102 := extract_val w2nNone "102" 102 rfl
  have e103 := extract_val w2nNone "103" 103 rfl
  have e104 := extract_val w2nNone "104" 104 rfl
  have e105 := extract_val w2nNone "105" 105 rfl
  have e106 := extract_val w2nNone "106" 106 rfl
  have e107 := extract_val w2nNone "107" 107 rfl
  have e108 := extract_val w2nNone "108" 108 rfl
  have e109 := extract_val w2nNone "109" 109 rfl
  have e110 := extract_val w2nNone "110" 110 rfl
  have e111 := extract_val w2nNone "111" 111 rfl
  have eabc : extract_number_from_text w2nNone "abc" = none := rfl
  norm_num [c2Rows, c2Row, List.filterMap_cons, List.filterMap_nil,
    e100, e101, e102, e103, e104, e105, e106, e107, e108, e109, e110, e111,
    eabc]

/-- C2 witness: at the thirteen-row fixture (canonical numeric answer
`"100"`, one exact match, eleven non-exact numeric answers, one
non-numeric answer) the hypotheses of the finalization theorem hold
concretely, there are exactly ten winners, and the pass is idempotent. -/
theorem top10_finalization_witness :
    extract_number_from_text w2nNone "100" = some 100
    ∧ (c2Rows.map AnswerRow.id).Nodup
    ∧ 10 ≤ (nonExactPairs w2nNone c2Rows 7 (some 1) 100).length
    ∧ (top10Pairs w2nNone c2Rows 7 (some 1) 100).length = 10
    ∧ compute_top10_proportional_scores w2nNone
        (compute_top10_proportional_scores w2nNone c2Rows 7 (some 1) "100")
        7 (some 1) "100"
      = compute_top10_proportional_scores w2nNone c2Rows 7 (some 1) "100" := by
  have hc : extract_number_from_text w2nNone "100" = some 100 :=
    extract_val w2nNone "100" 100 rfl
  have hids : (c2Rows.map AnswerRow.id).Nodup := by decide
  have hpipe : ∀ r ∈ c2Rows,
      r.score = compute_numeric_score w2nNone 30 "100" r.content
      ∧ r.is_correct =
          decide (0 < compute_numeric_score w2nNone 30 "100" r.content) := by
    intro r hr
    simp only [c2Rows, List.mem_cons, List.not_mem_nil, or_false] at hr
    rcases hr with rfl | rfl | rfl | rfl | rfl | rfl | rfl | rfl | rfl | rfl
      | rfl | rfl | rfl
    all_goals exact ⟨rfl, rfl⟩
  have h10 := c2_nonExact_len
  have hmain := top10_finalization w2nNone c2Rows 7 (some 1) "100" 100
    hc hids hpipe h10
  exact ⟨hc, hids, h10, hmain.1, hmain.2.2.2.2.2.2⟩

end HolidayTrivia
